import Mathlib

/-! # Media player: preview gating and purchase state

A shallow embedding of `src/player.js` (class `MediaPlayer`), of the sheet parser of
`src/js/googleSheetFetcher.js` (`parseCSV`, `parseCSVLine`, `extractTrackTitle`,
`getAlbumById`, `getSampleAlbumData`) and of `formatDuration` of `src/old/album-handler.js`.

Modelling conventions

* A DOM reference held in a field of the player is an `Option`: `none` is JavaScript `null`,
  `some x` is an element whose relevant attributes are `x`.
* `localStorage` is a finite map from keys to strings, represented by its lookup function.
* `audio.currentTime` and `track.duration` are JavaScript numbers that are always finite and
  non-NaN for a media element; they are represented by the rational number they denote, so the
  comparison `currentTime >= PREVIEW_DURATION` is exact.
* Every track element that `createTracks` builds is kept in `elements` (in creation order); the
  index of an element is its identity, which is what `currentlyPlaying` and the event-listener
  closures hold on to. `attached` says whether the element is still a child of the tracks grid;
  an audio that is removed from the document is paused by the browser.
  The page is assumed to contain no `.track-item` other than those `createTracks` builds, and the
  tracks grid is assumed to lie inside the media player module.
* A method that can raise a `TypeError` or `DOMException` returns an `Outcome`, which records the
  state reached when the method returned or raised.
* `Date.now()` and the answer to `confirm(...)` are inputs of the operations that read them.
* Purely presentational writes (text of the time displays, width of the progress bar, heights of
  the visualizer bars) are left out.
-/

/-- A track of an album, as the data source delivers it. -/
structure Track where
  id : Nat
  title : String
  src : String
  art : String
  duration : ℚ
deriving DecidableEq

/-- An album record. `price` is absent from the data sources and is `""` when missing. -/
structure Album where
  id : String
  domain : String
  title : String
  albumArt : String
  theme : String
  lock : Bool
  download : Bool
  paymentLink : String
  price : String
  tracks : List Track
deriving DecidableEq

/-- A `.track-item` element together with its `audio` child and its download button. -/
structure TrackElement where
  track : Track
  attached : Bool
  previewMode : Bool
  playing : Bool
  downloadDisabled : Bool
  paused : Bool
  currentTime : ℚ
deriving DecidableEq

/-- A `.theme-button` element: its `data-theme` value and whether it has class `active`. -/
structure ThemeButton where
  theme : String
  active : Bool
deriving DecidableEq

/-- The `.purchase-button` element. `purchaseText` is the text of its `.purchase-text` child,
`none` when it has no such child. `listener` says whether the click listener is installed. -/
structure PurchaseButton where
  purchaseText : Option String
  pulse : Bool
  listener : Bool
deriving DecidableEq

/-- The `.download-all-button` element. -/
structure DownloadAllButton where
  disabled : Bool
  listener : Bool
deriving DecidableEq

/-- What the player does to the outside world, in the order it happens: a call of
`showPurchasePrompt`, a call of `localStorage.getItem`, `window.open`, `confirm`, a click on a
temporary download link, and the scheduling of such a click with `setTimeout`. -/
inductive Effect where
  | purchasePrompt
  | storageRead (key : String)
  | windowOpen (url : String)
  | confirmDialog
  | download (href : String) (filename : String)
  | scheduledDownload (delay : Nat) (href : String) (filename : String)
deriving DecidableEq

/-- The browser's `localStorage`, as a lookup function. -/
abbrev Storage := String → Option String

/-- Storage with no entry. -/
def Storage.empty : Storage := fun _ => none

/-- The method `localStorage.getItem(k)`. -/
def Storage.getItem (ls : Storage) (k : String) : Option String := ls k

/-- The method `localStorage.setItem(k, v)`. -/
def Storage.setItem (ls : Storage) (k v : String) : Storage :=
  fun q => if q = k then some v else ls q

/-- The method `localStorage.removeItem(k)`. -/
def Storage.removeItem (ls : Storage) (k : String) : Storage :=
  fun q => if q = k then none else ls q

/-- JavaScript truthiness of a string. -/
def truthy (s : String) : Bool := decide (s ≠ "")

/-- JavaScript truthiness of a value that is a string or `null`. -/
def truthyOpt : Option String → Bool
  | none => false
  | some s => truthy s

/-- The preview duration in seconds (`this.PREVIEW_DURATION`, set once in the constructor). -/
def PREVIEW_DURATION : ℚ := 30

/-- The key under which the purchase token of an album is stored. -/
def purchaseKey (albumId : String) : String := "albumPurchaseToken-" ++ albumId

/-- The token that `unlockFullAccess` stores: `"purchased-" + Date.now()`. -/
def purchaseToken (now : Nat) : String := "purchased-" ++ toString now

/-- The player object together with the part of the browser it acts on. -/
structure MediaPlayer where
  STRIPE_PAYMENT_LINK : String
  TRACKS_DATA : List Track
  mediaPlayerModule : Option (List String)
  tracksGrid : Bool
  themeButtons : Option (List ThemeButton)
  purchaseButton : Option PurchaseButton
  downloadAllButton : Option DownloadAllButton
  previewSection : Option Bool
  purchasedSection : Option Bool
  albumTitleElement : Option String
  currentlyPlaying : Option Nat
  isPurchased : Bool
  currentAlbum : Option Album
  localStorage : Storage
  elements : List TrackElement
  effects : List Effect

/-- How a call ended: it returned, or it raised an exception; with the state reached. -/
inductive Outcome where
  | ok (p : MediaPlayer)
  | threw (p : MediaPlayer)

/-- The state in which the call ended. -/
def Outcome.state : Outcome → MediaPlayer
  | .ok p => p
  | .threw p => p

/-- Whether the call returned normally. -/
def Outcome.completes : Outcome → Bool
  | .ok _ => true
  | .threw _ => false

/-- Sequencing: the rest of a method body runs only if the call returned. -/
def Outcome.andThen (o : Outcome) (f : MediaPlayer → Outcome) : Outcome :=
  match o with
  | .ok p => f p
  | .threw p => .threw p

/-- The page that `initialize` queries: for each selector, the element found, if any. -/
structure Page where
  mediaPlayerModule : Option (List String)
  tracksGrid : Bool
  themeButtons : List ThemeButton
  purchaseButton : Option PurchaseButton
  downloadAllButton : Option DownloadAllButton
  previewSection : Option Bool
  purchasedSection : Option Bool
  albumTitleElement : Option String

/-- The constructor of `MediaPlayer`, in a browser whose storage is `ls`. -/
def MediaPlayer.construct (ls : Storage) : MediaPlayer :=
  { STRIPE_PAYMENT_LINK := "", TRACKS_DATA := [], mediaPlayerModule := none, tracksGrid := false,
    themeButtons := none, purchaseButton := none, downloadAllButton := none,
    previewSection := none, purchasedSection := none, albumTitleElement := none,
    currentlyPlaying := none, isPurchased := false, currentAlbum := none,
    localStorage := ls, elements := [], effects := [] }

/-- The part of `initialize` that looks the elements up (the album selector of `player.js` is an
empty stub, and theme switching and the pulse style do not touch the state modelled here). -/
def MediaPlayer.initialize (p : MediaPlayer) (page : Page) : MediaPlayer :=
  { p with mediaPlayerModule := page.mediaPlayerModule, tracksGrid := page.tracksGrid,
           themeButtons := some page.themeButtons, purchaseButton := page.purchaseButton,
           downloadAllButton := page.downloadAllButton, previewSection := page.previewSection,
           purchasedSection := page.purchasedSection,
           albumTitleElement := page.albumTitleElement }

/-! ## Helpers for the DOM operations -/

/-- Apply `f` to the element at index `i`, if there is one. -/
def modifyAt {α : Type} (f : α → α) : Nat → List α → List α
  | _, [] => []
  | 0, x :: xs => f x :: xs
  | n + 1, x :: xs => x :: modifyAt f n xs

/-- ASCII whitespace in the sense of the DOM standard: TAB, LF, FF, CR, SPACE. -/
def isAsciiWhitespace (c : Char) : Bool :=
  c.toNat == 9 || c.toNat == 10 || c.toNat == 12 || c.toNat == 13 || c.toNat == 32

/-- Whether `classList.add(s)` accepts `s`: it raises `SyntaxError` on the empty string and
`InvalidCharacterError` on a string containing ASCII whitespace. -/
def validToken (s : String) : Bool :=
  truthy s && !(s.toList.any isAsciiWhitespace)

/-- The effect of `classList.add(c)` on a class list, for a valid token `c`. -/
def addClass (classes : List String) (c : String) : List String :=
  if c ∈ classes then classes else classes ++ [c]

/-- Add class `active` to the first button whose `data-theme` is `themeClass`
(`Array.from(buttons).find(...)`, then `classList.add("active")`). -/
def activateFirst (themeClass : String) : List ThemeButton → List ThemeButton
  | [] => []
  | b :: bs =>
    if b.theme = themeClass then { b with active := true } :: bs
    else b :: activateFirst themeClass bs

/-- The statement `document.querySelector(".track-item.playing")?.classList.remove("playing")`:
the first track item of the document that has class `playing` loses it. -/
def clearFirstPlaying : List TrackElement → List TrackElement
  | [] => []
  | e :: es =>
    if e.attached && e.playing then { e with playing := false } :: es
    else e :: clearFirstPlaying es

/-- The element that `createTracks` builds for a track: class `track-item preview-mode`, a
disabled download button, and a fresh `audio` element (paused, at position 0). -/
def newTrackElement (t : Track) : TrackElement :=
  { track := t, attached := true, previewMode := true, playing := false,
    downloadDisabled := true, paused := true, currentTime := 0 }

/-- The body of the `forEach` in `unlockFullAccess`, for a track item inside the module. -/
def unlockItem (e : TrackElement) : TrackElement :=
  if e.attached then { e with previewMode := false, downloadDisabled := false } else e

/-- The value of `s.padStart(2, "0")`. -/
def padStart2 (s : String) : String :=
  String.mk (List.replicate (2 - s.length) '0') ++ s

/-- The file name that the download handlers give a track. -/
def downloadName (t : Track) : String :=
  padStart2 (toString t.id) ++ " - " ++ t.title ++ ".mp3"

/-! ## Methods of `MediaPlayer` -/

/-- The method `setTheme(themeClass)`. -/
def MediaPlayer.setTheme (p : MediaPlayer) (themeClass : String) : Outcome :=
  match p.mediaPlayerModule, p.themeButtons with
  | some _, some btns =>
    let btns := activateFirst themeClass (btns.map (fun b => { b with active := false }))
    let p := { p with themeButtons := some btns, mediaPlayerModule := some ["media-player-module"] }
    if validToken themeClass then
      .ok { p with mediaPlayerModule := some (addClass ["media-player-module"] themeClass) }
    else .threw p
  | _, _ => .ok p

/-- The method `unlockFullAccess()`, with `now` the value of `Date.now()`. -/
def MediaPlayer.unlockFullAccess (p : MediaPlayer) (now : Nat) : Outcome :=
  match p.mediaPlayerModule with
  | none => .ok p
  | some _ =>
    let p := { p with elements := p.elements.map unlockItem }
    match p.previewSection with
    | none => .threw p
    | some _ =>
      let p := { p with previewSection := some true }
      match p.purchasedSection with
      | none => .threw p
      | some _ =>
        let p := { p with purchasedSection := some false }
        match p.downloadAllButton with
        | none => .threw p
        | some b =>
          let p := { p with downloadAllButton := some { b with disabled := false } }
          match p.currentAlbum with
          | none => .ok p
          | some a =>
            .ok { p with localStorage :=
                    p.localStorage.setItem (purchaseKey a.id) (purchaseToken now) }

/-- The method `verifyPurchase(token)`; `none` is a `null` or missing token. -/
def MediaPlayer.verifyPurchase (p : MediaPlayer) (token : Option String) (now : Nat) : Outcome :=
  if truthyOpt token then
    MediaPlayer.unlockFullAccess { p with isPurchased := true } now
  else .ok p

/-- The method `checkPurchaseStatus()`. -/
def MediaPlayer.checkPurchaseStatus (p : MediaPlayer) (now : Nat) : Outcome :=
  match p.currentAlbum with
  | none => .ok p
  | some a =>
    let purchaseToken := p.localStorage.getItem (purchaseKey a.id)
    let p := { p with effects := p.effects ++ [Effect.storageRead (purchaseKey a.id)] }
    if truthyOpt purchaseToken then p.verifyPurchase purchaseToken now
    else .ok p

/-- The method `showPurchasePrompt()`. The call itself is recorded as an effect; the class is
added only when the button exists (its removal two seconds later is not modelled). -/
def MediaPlayer.showPurchasePrompt (p : MediaPlayer) : MediaPlayer :=
  let p := { p with effects := p.effects ++ [Effect.purchasePrompt] }
  match p.purchaseButton with
  | none => p
  | some b => { p with purchaseButton := some { b with pulse := true } }

/-- The method `setupPurchaseButton()`: the button is replaced by a clone, which has no
listener; the text is updated when the album has a price; the click listener is installed. -/
def MediaPlayer.setupPurchaseButton (p : MediaPlayer) : Outcome :=
  match p.purchaseButton with
  | none => .ok p
  | some b =>
    let b := { b with listener := false }
    let p := { p with purchaseButton := some b }
    match p.currentAlbum with
    | none => .ok { p with purchaseButton := some { b with listener := true } }
    | some a =>
      if truthy a.price then
        match b.purchaseText with
        | none => .threw p
        | some _ =>
          let text := "Buy Full Album for " ++ a.price
          let b := { b with purchaseText := some text, listener := true }
          .ok { p with purchaseButton := some b }
      else .ok { p with purchaseButton := some { b with listener := true } }

/-- The method `setupDownloadAllButton()`. -/
def MediaPlayer.setupDownloadAllButton (p : MediaPlayer) : MediaPlayer :=
  match p.downloadAllButton with
  | none => p
  | some b => { p with downloadAllButton := some { b with listener := true } }

/-- The first part of `createTracks()` when the grid exists: `innerHTML = ""` detaches the
former children, then one element per track of `TRACKS_DATA` is appended. A media element
that is removed from the document is paused by the browser (the removal steps of the HTML
standard), at its current position. -/
def MediaPlayer.rebuildGrid (p : MediaPlayer) : MediaPlayer :=
  let old := p.elements.map (fun e => { e with attached := false, paused := true })
  { p with elements := old ++ p.TRACKS_DATA.map newTrackElement }

/-- The method `createTracks()`: the grid is emptied (its former children stay alive but
detached), one element per track is appended, and the two buttons are set up. -/
def MediaPlayer.createTracks (p : MediaPlayer) : Outcome :=
  if p.tracksGrid then
    p.rebuildGrid.setupPurchaseButton.andThen fun p => .ok p.setupDownloadAllButton
  else .ok p

/-- The first part of the body of `loadAlbumData` (lines 69 to 91), for an album that is not
`null`: the album is stored, the title and theme are updated, the purchase record of the album
is removed from the storage, and `isPurchased` is set from the `lock` field. -/
def MediaPlayer.loadAlbumDataReset (p : MediaPlayer) (a : Album) : Outcome :=
  let p := { p with currentAlbum := some a, STRIPE_PAYMENT_LINK := a.paymentLink,
                    TRACKS_DATA := a.tracks }
  let p := { p with albumTitleElement := p.albumTitleElement.map (fun _ => a.title) }
  (if truthy a.theme then p.setTheme a.theme else .ok p).andThen fun p =>
  let p := { p with localStorage := p.localStorage.removeItem (purchaseKey a.id) }
  .ok { p with isPurchased := !a.lock }

/-- The second part of the body of `loadAlbumData` (lines 93 to 106): the tracks are created
and the interface is put in purchased or in preview mode according to the `lock` field. -/
def MediaPlayer.loadAlbumDataRender (p : MediaPlayer) (a : Album) (now : Nat) : Outcome :=
  p.createTracks.andThen fun p =>
  if !a.lock then p.unlockFullAccess now
  else
    let p := { p with previewSection := p.previewSection.map (fun _ => false),
                      purchasedSection := p.purchasedSection.map (fun _ => true) }
    p.checkPurchaseStatus now

/-- The method `loadAlbumData(albumData)`; `none` is a `null` or missing argument. -/
def MediaPlayer.loadAlbumData (p : MediaPlayer) (albumData : Option Album) (now : Nat) :
    Outcome :=
  match albumData with
  | none => .ok p
  | some a => (p.loadAlbumDataReset a).andThen fun p => p.loadAlbumDataRender a now

/-! ## Event listeners installed by `createTracks`

Each listener is a closure over the track element it was created for; `i` is the index of that
element in `elements`. An index that names no element has no listener. -/

/-- The first statement of the play/pause listener of element `i`: if `currentlyPlaying` is an
audio other than that of element `i`, it is paused and rewound, and the first track item of the
document with class `playing` loses that class. -/
def stopCurrent (currentlyPlaying : Option Nat) (i : Nat) (els : List TrackElement) :
    List TrackElement :=
  match currentlyPlaying with
  | none => els
  | some c =>
    if c ≠ i then
      clearFirstPlaying (modifyAt (fun e => { e with paused := true, currentTime := 0 }) c els)
    else els

/-- The `click` listener of the play/pause button of element `i`. -/
def MediaPlayer.playPauseClick (p : MediaPlayer) (i : Nat) : MediaPlayer :=
  match p.elements[i]? with
  | none => p
  | some _ =>
    let stopped := stopCurrent p.currentlyPlaying i p.elements
    match stopped[i]? with
    | none => { p with elements := stopped }
    | some audio =>
      if audio.paused then
        { p with elements := modifyAt (fun e => { e with paused := false, playing := true }) i stopped,
                 currentlyPlaying := some i }
      else
        { p with elements := modifyAt (fun e => { e with paused := true, playing := false }) i stopped,
                 currentlyPlaying := none }

/-- The `timeupdate` listener of the audio of element `i`. It reads `audio.currentTime`. -/
def MediaPlayer.onTimeUpdate (p : MediaPlayer) (i : Nat) : MediaPlayer :=
  match p.elements[i]? with
  | none => p
  | some audio =>
    if !p.isPurchased && decide (PREVIEW_DURATION ≤ audio.currentTime) then
      MediaPlayer.showPurchasePrompt
        { p with elements :=
                   modifyAt (fun e => { e with paused := true, currentTime := 0, playing := false })
                     i p.elements,
                 currentlyPlaying := none }
    else p

/-- The `ended` listener of the audio of element `i`. -/
def MediaPlayer.onEnded (p : MediaPlayer) (i : Nat) : MediaPlayer :=
  match p.elements[i]? with
  | none => p
  | some _ =>
    { p with elements := modifyAt (fun e => { e with currentTime := 0, playing := false }) i p.elements,
             currentlyPlaying := none }

/-- The `click` listener of the download button of element `i`. -/
def MediaPlayer.downloadClick (p : MediaPlayer) (i : Nat) : MediaPlayer :=
  match p.elements[i]? with
  | none => p
  | some e =>
    if p.isPurchased then
      { p with effects := p.effects ++ [Effect.download e.track.src (downloadName e.track)] }
    else p

/-- The downloads that the download-all listener schedules, one per track, 500 ms apart. -/
def scheduledDownloads (tracks : List Track) : List Effect :=
  (List.range tracks.length).zipWith
    (fun index t => Effect.scheduledDownload (index * 500) t.src (downloadName t)) tracks

/-- The `click` listener of the download-all button, when it is installed. -/
def MediaPlayer.downloadAllClick (p : MediaPlayer) : MediaPlayer :=
  match p.downloadAllButton with
  | none => p
  | some b =>
    if b.listener && p.isPurchased then
      { p with effects := p.effects ++ scheduledDownloads p.TRACKS_DATA }
    else p

/-- The `click` listener of the purchase button, when it is installed; `answer` is what the
user answers to the `confirm` dialog. -/
def MediaPlayer.purchaseClick (p : MediaPlayer) (answer : Bool) (now : Nat) : Outcome :=
  match p.purchaseButton with
  | none => .ok p
  | some b =>
    if b.listener then
      if truthy p.STRIPE_PAYMENT_LINK then
        let p := { p with effects :=
                     p.effects ++ [Effect.windowOpen p.STRIPE_PAYMENT_LINK, Effect.confirmDialog] }
        if answer then p.unlockFullAccess now else .ok p
      else
        let p := { p with effects := p.effects ++ [Effect.confirmDialog] }
        if answer then p.unlockFullAccess now else .ok p
    else .ok p

/-! ## The audio elements as the browser drives them

A media element changes on its own while it plays. Two such changes matter to the listeners:
its playback position moves, and it reaches its end. The HTML standard prescribes that when a
media element ends playback it sets `paused` to true before it fires `ended`. -/

/-- A `timeupdate` of element `i`: if the audio is playing its position has moved to `t`, if it
is paused the position is where it was; then the listener runs. -/
def MediaPlayer.timeUpdate (p : MediaPlayer) (i : Nat) (t : ℚ) : MediaPlayer :=
  MediaPlayer.onTimeUpdate
    { p with elements :=
               modifyAt (fun e => if e.paused then e else { e with currentTime := t }) i p.elements }
    i

/-- The end of playback of element `i`, which must be playing: the browser sets `paused`,
then the `ended` listener runs. On a paused element nothing happens. -/
def MediaPlayer.ended (p : MediaPlayer) (i : Nat) : MediaPlayer :=
  match p.elements[i]? with
  | none => p
  | some e =>
    if e.paused then p
    else
      MediaPlayer.onEnded
        { p with elements := modifyAt (fun e => { e with paused := true }) i p.elements } i

/-! ## Events on the tracks -/

/-- The events on the track elements: a click on a play/pause button, a time update of an
audio (a preview cutoff is a time update on which the listener stops the track), and the end
of playback of an audio. -/
inductive TrackEvent where
  | playPauseClick (i : Nat)
  | timeUpdate (i : Nat) (t : ℚ)
  | ended (i : Nat)

/-- The element an event is about. -/
def TrackEvent.target : TrackEvent → Nat
  | .playPauseClick i => i
  | .timeUpdate i _ => i
  | .ended i => i

/-- The player after one event. -/
def MediaPlayer.step (p : MediaPlayer) : TrackEvent → MediaPlayer
  | .playPauseClick i => p.playPauseClick i
  | .timeUpdate i t => p.timeUpdate i t
  | .ended i => p.ended i

/-- The player after a sequence of events, handled one after the other. -/
def MediaPlayer.run (p : MediaPlayer) (events : List TrackEvent) : MediaPlayer :=
  events.foldl MediaPlayer.step p

/-! ## Conditions on the page, projections of the state, invariants -/

/-- The elements that `unlockFullAccess` dereferences are all present. -/
def MediaPlayer.domPresent (p : MediaPlayer) : Bool :=
  p.mediaPlayerModule.isSome && p.previewSection.isSome && p.purchasedSection.isSome &&
    p.downloadAllButton.isSome

/-- The player with its storage replaced by `ls`. -/
def MediaPlayer.withStorage (p : MediaPlayer) (ls : Storage) : MediaPlayer :=
  { p with localStorage := ls }

/-- The fields of the player that the gating logic reads and writes, apart from the track
elements: what `setTheme`, the button set-up and `createTracks` leave alone. -/
structure Gate where
  isPurchased : Bool
  currentAlbum : Option Album
  currentlyPlaying : Option Nat
  localStorage : Storage
  effects : List Effect
  TRACKS_DATA : List Track
  STRIPE_PAYMENT_LINK : String
  tracksGrid : Bool
  previewSection : Option Bool
  purchasedSection : Option Bool

/-- The gate fields of a player. -/
def MediaPlayer.gate (p : MediaPlayer) : Gate :=
  { isPurchased := p.isPurchased, currentAlbum := p.currentAlbum,
    currentlyPlaying := p.currentlyPlaying, localStorage := p.localStorage,
    effects := p.effects, TRACKS_DATA := p.TRACKS_DATA,
    STRIPE_PAYMENT_LINK := p.STRIPE_PAYMENT_LINK, tracksGrid := p.tracksGrid,
    previewSection := p.previewSection, purchasedSection := p.purchasedSection }

/-- Every audio that is not paused is the one `currentlyPlaying` refers to. -/
def MediaPlayer.exclusive (p : MediaPlayer) : Prop :=
  ∀ (j : Nat) (e : TrackElement), p.elements[j]? = some e → e.paused = false →
    p.currentlyPlaying = some j

/-- While the album is not purchased, no track of the grid is at or beyond the preview limit. -/
def MediaPlayer.withinPreview (p : MediaPlayer) : Prop :=
  p.isPurchased = false →
    ∀ (j : Nat) (e : TrackElement), p.elements[j]? = some e → e.attached = true →
      e.currentTime < PREVIEW_DURATION

/-- The event is about a track element of the grid. -/
def MediaPlayer.onGrid (p : MediaPlayer) (ev : TrackEvent) : Prop :=
  ∃ e, p.elements[ev.target]? = some e ∧ e.attached = true

/-! ## Concrete data used to exercise the model -/

/-- A page on which every element the player looks up is present. -/
def fullPage : Page :=
  { mediaPlayerModule := some ["media-player-module"], tracksGrid := true,
    themeButtons := [{ theme := "theme-default", active := true }],
    purchaseButton := some { purchaseText := some "Buy Full Album", pulse := false, listener := false },
    downloadAllButton := some { disabled := true, listener := false },
    previewSection := some false, purchasedSection := some true,
    albumTitleElement := some "" }

/-- A locked album with a 225-second track and a 198-second track (the first two tracks of the
first album of the sample data). -/
def lockedAlbum : Album :=
  { id := "album001", domain := "bilingualbeats.ai",
    title := "Maori and English Bilingual Tribute Album",
    albumArt := "https://via.placeholder.com/300x300?text=Album+Art",
    theme := "theme-default", lock := true, download := true,
    paymentLink := "https://buy.stripe.com/14k7w75i8fGzaIgaEG", price := "",
    tracks :=
      [{ id := 1, title := "Whenua & Home", duration := 225,
         src := "https://bilingualbeats.ai/wp-content/uploads/2025/04/Whenua-Home-.mp3",
         art := "https://via.placeholder.com/100x100?text=Track+1" },
       { id := 2, title := "Te Moana Calls", duration := 198,
         src := "https://bilingualbeats.ai/wp-content/uploads/2025/04/Te-Moana-Calls.mp3",
         art := "https://via.placeholder.com/100x100?text=Track+2" }] }

/-- The same album with `lock` false. -/
def freeAlbum : Album := { lockedAlbum with id := "album002", lock := false }

/-- A freshly constructed and initialised player on the full page, with storage `ls`. -/
def freshPlayer (ls : Storage) : MediaPlayer :=
  MediaPlayer.initialize (MediaPlayer.construct ls) fullPage

/-- The locked album is loaded into a fresh player, the first track is started, and its
playback position has reached 30 seconds. -/
def previewAtLimit : MediaPlayer :=
  let loaded := ((freshPlayer Storage.empty).loadAlbumData (some lockedAlbum) 0).state
  let started := loaded.playPauseClick 0
  { started with elements := modifyAt (fun e => { e with currentTime := 30 }) 0 started.elements }

/-- The free album is loaded into a fresh player, the first track is started, and its playback
position has reached 200 seconds. -/
def freePlayback : MediaPlayer :=
  let loaded := ((freshPlayer Storage.empty).loadAlbumData (some freeAlbum) 0).state
  let started := loaded.playPauseClick 0
  { started with elements := modifyAt (fun e => { e with currentTime := 200 }) 0 started.elements }

/-- The locked album is loaded into a fresh player on the full page. -/
def lockedLoaded : MediaPlayer :=
  ((freshPlayer Storage.empty).loadAlbumData (some lockedAlbum) 0).state

/-- The state after the user has clicked the purchase button of the locked album and has
confirmed the simulated purchase (at clock value 1700000000000). -/
def afterPurchase : MediaPlayer :=
  (lockedLoaded.purchaseClick true 1700000000000).state

/-- The events of a short session on the locked album: the first track is started and plays
to second 10, the second track is started, plays to second 31 (and is cut off), is started
again and plays to second 12. -/
def sessionEvents : List TrackEvent :=
  [.playPauseClick 0, .timeUpdate 0 10, .playPauseClick 1, .timeUpdate 1 31,
   .playPauseClick 1, .timeUpdate 1 12]

/-! ## Events on the player while an album is displayed -/

/-- What can happen to the player between two album loads: an event on a track element, a click
on a download button or on the download-all button, a click on the purchase button (with the
answer to the dialog), and a call of `verifyPurchase`, `unlockFullAccess` or
`checkPurchaseStatus`. -/
inductive PlayerEvent where
  | track (ev : TrackEvent)
  | downloadClick (i : Nat)
  | downloadAllClick
  | purchaseClick (answer : Bool) (now : Nat)
  | verifyPurchase (token : Option String) (now : Nat)
  | unlockFullAccess (now : Nat)
  | checkPurchaseStatus (now : Nat)

/-- The listener or method that an event runs. -/
def MediaPlayer.handle (p : MediaPlayer) : PlayerEvent → Outcome
  | .track ev => .ok (p.step ev)
  | .downloadClick i => .ok (p.downloadClick i)
  | .downloadAllClick => .ok p.downloadAllClick
  | .purchaseClick answer now => p.purchaseClick answer now
  | .verifyPurchase token now => p.verifyPurchase token now
  | .unlockFullAccess now => p.unlockFullAccess now
  | .checkPurchaseStatus now => p.checkPurchaseStatus now

/-- The player after a sequence of events. An exception that a listener raises ends that
listener only; the next event finds the state the listener had reached. -/
def MediaPlayer.after (p : MediaPlayer) (events : List PlayerEvent) : MediaPlayer :=
  events.foldl (fun q ev => (q.handle ev).state) p

/-- A page that has the media player module but no `.purchase-section.preview-mode`. -/
def pageWithoutPreviewSection : Page := { fullPage with previewSection := none }

/-- A session on the free album: the second track is played and downloaded, all tracks are
downloaded, the purchase button is clicked twice, and the purchase methods are called. -/
def purchasedSession : List PlayerEvent :=
  [.track (.playPauseClick 1), .track (.timeUpdate 1 45), .downloadClick 1, .downloadAllClick,
   .purchaseClick false 5, .purchaseClick true 6, .verifyPurchase none 7,
   .verifyPurchase (some "") 8, .unlockFullAccess 9, .checkPurchaseStatus 10,
   .track (.ended 1)]

/-! ## Formatting a time

`MediaPlayer.formatTime` in `src/player.js` and `formatDuration` in `src/old/album-handler.js`.
An integer-valued number is printed by JavaScript as its decimal numeral (for magnitudes
below `1e21`, beyond which the exponent notation sets in; that range is not modelled). -/

/-- The case mappings of JavaScript strings. -/
structure CaseMapping where
  toUpperCase : String → String
  toLowerCase : String → String

/-- The case mappings on ASCII letters, every other character left as it is. -/
def asciiCase : CaseMapping :=
  { toUpperCase := fun s => String.mk (s.toList.map Char.toUpper),
    toLowerCase := fun s => String.mk (s.toList.map Char.toLower) }

/-- White space and line terminators of ECMAScript: what `trim` strips and `\s` matches. -/
def isJsWhitespace (c : Char) : Bool :=
  c.toNat == 9 || c.toNat == 10 || c.toNat == 11 || c.toNat == 12 || c.toNat == 13 ||
    c.toNat == 32 || c.toNat == 160 || c.toNat == 5760 ||
    (8192 ≤ c.toNat && c.toNat ≤ 8202) || c.toNat == 8232 || c.toNat == 8233 ||
    c.toNat == 8239 || c.toNat == 8287 || c.toNat == 12288 || c.toNat == 65279

/-- The method `trim()`, on the characters of a string. -/
def jsTrimChars (cs : List Char) : List Char :=
  ((cs.dropWhile isJsWhitespace).reverse.dropWhile isJsWhitespace).reverse

/-- The method `trim()`. -/
def jsTrim (s : String) : String := String.mk (jsTrimChars s.toList)

/-- Splitting the characters of a string at every occurrence of `sep`. -/
def splitChars (sep : Char) : List Char → List (List Char)
  | [] => [[]]
  | c :: cs =>
    if c = sep then [] :: splitChars sep cs
    else
      match splitChars sep cs with
      | [] => [[c]]
      | w :: ws => (c :: w) :: ws

/-- The method `split(sep)` for a separator of one character. -/
def jsSplit (s : String) (sep : Char) : List String :=
  (splitChars sep s.toList).map String.mk

/-- The method `indexOf(x)` of an array of strings; `none` is the result `-1`. -/
def jsIndexOf : List String → String → Option Nat
  | [], _ => none
  | y :: ys, x => if y = x then some 0 else (jsIndexOf ys x).map (fun n => n + 1)

/-! ## Parsing a line of the sheet -/

/-- The loop of `parseCSVLine`: the characters still to read, `inQuotes`, `currentValue` and
`values`; after the loop the last value is pushed. -/
def parseCSVLineLoop : List Char → Bool → List Char → List String → List String
  | [], _, currentValue, values => values ++ [String.mk currentValue]
  | char :: rest, inQuotes, currentValue, values =>
    if char = Char.ofNat 34 then parseCSVLineLoop rest (!inQuotes) currentValue values
    else if char = Char.ofNat 44 && !inQuotes then
      parseCSVLineLoop rest inQuotes [] (values ++ [String.mk currentValue])
    else parseCSVLineLoop rest inQuotes (currentValue ++ [char]) values

/-- The method `parseCSVLine(line)`. -/
def parseCSVLine (line : String) : List String :=
  parseCSVLineLoop line.toList false [] []

/-! ## The title of a track -/

/-- The replacement `.replace(/\.(mp3|wav|ogg)$/, "")`. -/
def stripExtension (cs : List Char) : List Char :=
  let ext := cs.drop (cs.length - 4)
  if 4 ≤ cs.length ∧ (ext = ".mp3".toList ∨ ext = ".wav".toList ∨ ext = ".ogg".toList) then
    cs.take (cs.length - 4)
  else cs

/-- The second replacement of `extractTrackTitle`: every hyphen becomes a space. -/
def replaceHyphens (cs : List Char) : List Char :=
  cs.map (fun c => if c = Char.ofNat 45 then Char.ofNat 32 else c)

/-- The replacement `.replace(/\s+/g, " ")`; the flag says whether the character before was
white space, in which case the run it belongs to has been replaced already. -/
def collapseWhitespace : Bool → List Char → List Char
  | _, [] => []
  | inRun, c :: cs =>
    if isJsWhitespace c then
      if inRun then collapseWhitespace true cs
      else Char.ofNat 32 :: collapseWhitespace true cs
    else c :: collapseWhitespace false cs

/-- The expression `word.charAt(0).toUpperCase() + word.slice(1)`. When the word starts with a
character outside the Basic Multilingual Plane, `charAt(0)` is half of a surrogate pair, which
`toUpperCase` leaves alone, so the word is unchanged. -/
def capitalize (cm : CaseMapping) (word : String) : String :=
  match word.toList with
  | [] => ""
  | c :: cs =>
    if c.toNat < 65536 then cm.toUpperCase (String.singleton c) ++ String.mk cs
    else word

/-- The method `extractTrackTitle(trackUrl)`. Nothing in its `try` block can raise on a
string, so the `catch` branch is never taken. -/
def extractTrackTitle (cm : CaseMapping) (trackUrl : String) : String :=
  if !truthy trackUrl then ""
  else
    let filename := ((jsSplit trackUrl (Char.ofNat 47)).getLast?).getD ""
    if !truthy filename then ""
    else
      let title := String.mk (jsTrimChars (collapseWhitespace false
        (replaceHyphens (stripExtension filename.toList))))
      String.intercalate " " ((jsSplit title (Char.ofNat 32)).map (capitalize cm))

/-! ## The object that maps album identifiers to albums

`parseCSV` and `getSampleAlbumData` return a plain JavaScript object. Such an object has its
own properties and a prototype: reading `albums[k]` for a `k` that is not an own property
goes on to the prototype, which is `Object.prototype` unless an assignment to the property
`__proto__` has replaced it. The order in which the own keys are enumerated is not modelled. -/

/-- The object returned by the data source: its own properties, and the album that an
assignment `albums["__proto__"] = album` has installed as its prototype, if any. -/
structure AlbumMap where
  own : List (String × Album)
  proto : Option Album
deriving DecidableEq

/-- The empty object literal. -/
def AlbumMap.empty : AlbumMap := { own := [], proto := none }

/-- Assigning an own property: an existing key keeps its place, a new key is appended. -/
def upsert (k : String) (a : Album) : List (String × Album) → List (String × Album)
  | [] => [(k, a)]
  | (k', a') :: rest => if k' = k then (k, a) :: rest else (k', a') :: upsert k a rest

/-- The assignment `albums[k] = album`. -/
def AlbumMap.set (m : AlbumMap) (k : String) (a : Album) : AlbumMap :=
  if k = "__proto__" then { m with proto := some a } else { m with own := upsert k a m.own }

/-- The value of `Object.keys(albums)`, up to order. -/
def AlbumMap.keys (m : AlbumMap) : List String := m.own.map Prod.fst

/-- The values that reading a property of the object can give. -/
inductive JsValue where
  | null
  | album (a : Album)
  | string (s : String)
  | boolean (b : Bool)
  | array (ts : List Track)
  | objectPrototypeMember (name : String)
deriving DecidableEq

/-- The properties of `Object.prototype`. -/
def objectPrototypeNames : List String :=
  ["constructor", "__defineGetter__", "__defineSetter__", "hasOwnProperty",
   "__lookupGetter__", "__lookupSetter__", "isPrototypeOf", "propertyIsEnumerable",
   "toString", "valueOf", "__proto__", "toLocaleString"]

/-- Reading a property of `Object.prototype`; `none` is `undefined`. -/
def objectPrototypeGet (name : String) : Option JsValue :=
  if name ∈ objectPrototypeNames then some (.objectPrototypeMember name) else none

/-- Reading an own property of an album record that the data source built. -/
def albumProperty (a : Album) (name : String) : Option JsValue :=
  if name = "id" then some (.string a.id)
  else if name = "domain" then some (.string a.domain)
  else if name = "title" then some (.string a.title)
  else if name = "albumArt" then some (.string a.albumArt)
  else if name = "theme" then some (.string a.theme)
  else if name = "lock" then some (.boolean a.lock)
  else if name = "download" then some (.boolean a.download)
  else if name = "paymentLink" then some (.string a.paymentLink)
  else if name = "tracks" then some (.array a.tracks)
  else none

/-- The expression `albums[k]`; `none` is `undefined`. -/
def AlbumMap.get (m : AlbumMap) (k : String) : Option JsValue :=
  match m.own.lookup k with
  | some a => some (.album a)
  | none =>
    match m.proto with
    | none => objectPrototypeGet k
    | some a =>
      if k = "__proto__" then some (.album a)
      else
        match albumProperty a k with
        | some v => some v
        | none => objectPrototypeGet k

/-- JavaScript truthiness of a value. -/
def JsValue.truthy : JsValue → Bool
  | .null => false
  | .album _ => true
  | .string s => decide (s ≠ "")
  | .boolean b => b
  | .array _ => true
  | .objectPrototypeMember _ => true

/-- The result of `getAlbumById(albumId)` once the albums are fetched:
`albums[albumId] || null`. -/
def getAlbumById (albums : AlbumMap) (albumId : String) : JsValue :=
  match albums.get albumId with
  | some v => if v.truthy then v else .null
  | none => .null

/-! ## The sample dataset of `getSampleAlbumData` -/

/-- The record `album001` of the sample dataset. -/
def sampleAlbum001 : Album :=
  { id := "album001", domain := "bilingualbeats.ai",
    title := "Maori and English Bilingual Tribute Album",
    albumArt := "https://via.placeholder.com/300x300?text=Album+Art",
    theme := "theme-default", lock := true, download := true,
    paymentLink := "https://buy.stripe.com/14k7w75i8fGzaIgaEG", price := "",
    tracks :=
      [{ id := 1, title := "Whenua & Home", duration := 225,
         src := "https://bilingualbeats.ai/wp-content/uploads/2025/04/Whenua-Home-.mp3",
         art := "https://via.placeholder.com/100x100?text=Track+1" },
       { id := 2, title := "Te Moana Calls", duration := 198,
         src := "https://bilingualbeats.ai/wp-content/uploads/2025/04/Te-Moana-Calls.mp3",
         art := "https://via.placeholder.com/100x100?text=Track+2" },
       { id := 3, title := "Whānau Ties", duration := 210,
         src := "https://bilingualbeats.ai/wp-content/uploads/2025/04/Whanau-Ties.mp3",
         art := "https://via.placeholder.com/100x100?text=Track+3" },
       { id := 4, title := "Ngahere Groove", duration := 183,
         src := "https://bilingualbeats.ai/wp-content/uploads/2025/04/Ngahere-Groove.mp3",
         art := "https://via.placeholder.com/100x100?text=Track+4" },
       { id := 5, title := "Tūmanako (Hope)", duration := 240,
         src := "https://bilingualbeats.ai/wp-content/uploads/2025/04/Tumanako-Hope.mp3",
         art := "https://via.placeholder.com/100x100?text=Track+5" },
       { id := 6, title := "Aroha Rawa (So Much Love)", duration := 195,
         src := "https://bilingualbeats.ai/wp-content/uploads/2025/04/Aroha-Rawa-So-Much-Love.mp3",
         art := "https://via.placeholder.com/100x100?text=Track+6" },
       { id := 7, title := "Track Seven", duration := 180,
         src := "https://example.com/track7.mp3",
         art := "https://via.placeholder.com/100x100?text=Track+7" },
       { id := 8, title := "Track Eight", duration := 180,
         src := "https://example.com/track8.mp3",
         art := "https://via.placeholder.com/100x100?text=Track+8" },
       { id := 9, title := "Track Nine", duration := 180,
         src := "https://example.com/track9.mp3",
         art := "https://via.placeholder.com/100x100?text=Track+9" },
       { id := 10, title := "Track Ten", duration := 180,
         src := "https://example.com/track10.mp3",
         art := "https://via.placeholder.com/100x100?text=Track+10" },
       { id := 11, title := "Track Eleven", duration := 180,
         src := "https://example.com/track11.mp3",
         art := "https://via.placeholder.com/100x100?text=Track+11" },
       { id := 12, title := "Track Twelve", duration := 180,
         src := "https://example.com/track12.mp3",
         art := "https://via.placeholder.com/100x100?text=Track+12" }] }

/-- The record `album002` of the sample dataset. -/
def sampleAlbum002 : Album :=
  { id := "album002", domain := "bilingualbeats.ai",
    title := "Terrific Toddlers at 2 Mandarin-English Early Learners",
    albumArt := "https://via.placeholder.com/300x300?text=Album+Art",
    theme := "theme-cyberpunk", lock := false, download := true,
    paymentLink := "", price := "",
    tracks :=
      [{ id := 1, title := "Terrific Two Year Olds Lets Create", duration := 225,
         src := "https://bilingualbeats.ai/wp-content/uploads/2025/04/ENGLISH-MANDARIN-Terrific-Two-Year-Olds-Lets-Create.mp3",
         art := "https://via.placeholder.com/100x100?text=Track+1" },
       { id := 2, title := "Terrific Two Year Olds Lets Create 1", duration := 198,
         src := "https://bilingualbeats.ai/wp-content/uploads/2025/04/ENGLISH-MANDARIN-Terrific-Two-Year-Olds-Lets-Create-1.mp3",
         art := "https://via.placeholder.com/100x100?text=Track+2" },
       { id := 3, title := "Terrific Two Year Olds Lets Create 2", duration := 210,
         src := "https://bilingualbeats.ai/wp-content/uploads/2025/04/ENGLISH-MANDARIN-Terrific-Two-Year-Olds-Lets-Create-2.mp3",
         art := "https://via.placeholder.com/100x100?text=Track+3" },
       { id := 4, title := "Track Four", duration := 180,
         src := "https://example.com/track4.mp3",
         art := "https://via.placeholder.com/100x100?text=Track+4" },
       { id := 5, title := "Track Five", duration := 180,
         src := "https://example.com/track5.mp3",
         art := "https://via.placeholder.com/100x100?text=Track+5" },
       { id := 6, title := "Track Six", duration := 180,
         src := "https://example.com/track6.mp3",
         art := "https://via.placeholder.com/100x100?text=Track+6" },
       { id := 7, title := "Track Seven", duration := 180,
         src := "https://example.com/track7.mp3",
         art := "https://via.placeholder.com/100x100?text=Track+7" },
       { id := 8, title := "Track Eight", duration := 180,
         src := "https://example.com/track8.mp3",
         art := "https://via.placeholder.com/100x100?text=Track+8" },
       { id := 9, title := "Track Nine", duration := 180,
         src := "https://example.com/track9.mp3",
         art := "https://via.placeholder.com/100x100?text=Track+9" },
       { id := 10, title := "Track Ten", duration := 180,
         src := "https://example.com/track10.mp3",
         art := "https://via.placeholder.com/100x100?text=Track+10" },
       { id := 11, title := "Track Eleven", duration := 180,
         src := "https://example.com/track11.mp3",
         art := "https://via.placeholder.com/100x100?text=Track+11" },
       { id := 12, title := "Track Twelve", duration := 180,
         src := "https://example.com/track12.mp3",
         art := "https://via.placeholder.com/100x100?text=Track+12" }] }

/-- The record `album003` of the sample dataset. -/
def sampleAlbum003 : Album :=
  { id := "album003", domain := "bilingualbeats.ai",
    title := "Getting ready to blitz through School",
    albumArt := "https://via.placeholder.com/300x300?text=Album+Art",
    theme := "theme-neon-sunset", lock := false, download := true,
    paymentLink := "", price := "",
    tracks :=
      [{ id := 1, title := "School Ready", duration := 225,
         src := "https://bilingualbeats.ai/wp-content/uploads/2025/04/Whenua-Home-.mp3",
         art := "https://via.placeholder.com/100x100?text=Track+1" },
       { id := 2, title := "Learning Fun", duration := 198,
         src := "https://bilingualbeats.ai/wp-content/uploads/2025/04/Te-Moana-Calls.mp3",
         art := "https://via.placeholder.com/100x100?text=Track+2" },
       { id := 3, title := "Track Three", duration := 180,
         src := "https://example.com/track3.mp3",
         art := "https://via.placeholder.com/100x100?text=Track+3" },
       { id := 4, title := "Track Four", duration := 180,
         src := "https://example.com/track4.mp3",
         art := "https://via.placeholder.com/100x100?text=Track+4" },
       { id := 5, title := "Track Five", duration := 180,
         src := "https://example.com/track5.mp3",
         art := "https://via.placeholder.com/100x100?text=Track+5" },
       { id := 6, title := "Track Six", duration := 180,
         src := "https://example.com/track6.mp3",
         art := "https://via.placeholder.com/100x100?text=Track+6" },
       { id := 7, title := "Track Seven", duration := 180,
         src := "https://example.com/track7.mp3",
         art := "https://via.placeholder.com/100x100?text=Track+7" },
       { id := 8, title := "Track Eight", duration := 180,
         src := "https://example.com/track8.mp3",
         art := "https://via.placeholder.com/100x100?text=Track+8" },
       { id := 9, title := "Track Nine", duration := 180,
         src := "https://example.com/track9.mp3",
         art := "https://via.placeholder.com/100x100?text=Track+9" },
       { id := 10, title := "Track Ten", duration := 180,
         src := "https://example.com/track10.mp3",
         art := "https://via.placeholder.com/100x100?text=Track+10" },
       { id := 11, title := "Track Eleven", duration := 180,
         src := "https://example.com/track11.mp3",
         art := "https://via.placeholder.com/100x100?text=Track+11" },
       { id := 12, title := "Track Twelve", duration := 180,
         src := "https://example.com/track12.mp3",
         art := "https://via.placeholder.com/100x100?text=Track+12" }] }

/-- The record `album004` of the sample dataset. -/
def sampleAlbum004 : Album :=
  { id := "album004", domain := "bilingualbeats.ai",
    title := "Mandarin English Bilingual ABC",
    albumArt := "https://via.placeholder.com/300x300?text=Album+Art",
    theme := "theme-digital-ocean", lock := true, download := true,
    paymentLink := "https://buy.stripe.com/14k7w75i8fGzaIgaEG", price := "",
    tracks :=
      [{ id := 1, title := "ABC Song", duration := 225,
         src := "https://bilingualbeats.ai/wp-content/uploads/2025/04/Whenua-Home-.mp3",
         art := "https://via.placeholder.com/100x100?text=Track+1" },
       { id := 2, title := "Numbers Fun", duration := 198,
         src := "https://bilingualbeats.ai/wp-content/uploads/2025/04/Te-Moana-Calls.mp3",
         art := "https://via.placeholder.com/100x100?text=Track+2" },
       { id := 3, title := "Track Three", duration := 180,
         src := "https://example.com/track3.mp3",
         art := "https://via.placeholder.com/100x100?text=Track+3" },
       { id := 4, title := "Track Four", duration := 180,
         src := "https://example.com/track4.mp3",
         art := "https://via.placeholder.com/100x100?text=Track+4" },
       { id := 5, title := "Track Five", duration := 180,
         src := "https://example.com/track5.mp3",
         art := "https://via.placeholder.com/100x100?text=Track+5" },
       { id := 6, title := "Track Six", duration := 180,
         src := "https://example.com/track6.mp3",
         art := "https://via.placeholder.com/100x100?text=Track+6" },
       { id := 7, title := "Track Seven", duration := 180,
         src := "https://example.com/track7.mp3",
         art := "https://via.placeholder.com/100x100?text=Track+7" },
       { id := 8, title := "Track Eight", duration := 180,
         src := "https://example.com/track8.mp3",
         art := "https://via.placeholder.com/100x100?text=Track+8" },
       { id := 9, title := "Track Nine", duration := 180,
         src := "https://example.com/track9.mp3",
         art := "https://via.placeholder.com/100x100?text=Track+9" },
       { id := 10, title := "Track Ten", duration := 180,
         src := "https://example.com/track10.mp3",
         art := "https://via.placeholder.com/100x100?text=Track+10" },
       { id := 11, title := "Track Eleven", duration := 180,
         src := "https://example.com/track11.mp3",
         art := "https://via.placeholder.com/100x100?text=Track+11" },
       { id := 12, title := "Track Twelve", duration := 180,
         src := "https://example.com/track12.mp3",
         art := "https://via.placeholder.com/100x100?text=Track+12" }] }
/-- The method `getSampleAlbumData()`. -/
def getSampleAlbumData : AlbumMap :=
  { own := [("album001", sampleAlbum001), ("album002", sampleAlbum002),
            ("album003", sampleAlbum003), ("album004", sampleAlbum004)],
    proto := none }

/-! ## Parsing the sheet -/

/-- The pattern `index >= 0 && values[index] ? values[index].trim() : fallback`. -/
def cellOr (values : List String) (index : Option Nat) (fallback : String) : String :=
  match index with
  | none => fallback
  | some i =>
    match values[i]? with
    | none => fallback
    | some v => if truthy v then jsTrim v else fallback

/-- The pattern `index >= 0 ? values[index].trim() : ""`; `none` is the `TypeError` that
`undefined.trim()` raises when the row has no value at that index. -/
def cellStrict (values : List String) (index : Option Nat) : Option String :=
  match index with
  | none => some ""
  | some i => (values[i]?).map jsTrim

/-- One round of the track loop of `parseCSV`, for the column number `j`. -/
def trackAt (cm : CaseMapping) (headers values : List String) (j : Nat) : Option Track :=
  let trackArtIndex := jsIndexOf headers ("Track " ++ toString j ++ " art")
  match jsIndexOf headers ("Track " ++ toString j) with
  | none => none
  | some trackIndex =>
    match values[trackIndex]? with
    | none => none
    | some cell =>
      let trackUrl := jsTrim cell
      if truthy trackUrl then
        some { id := j, title := extractTrackTitle cm trackUrl, src := trackUrl,
               art := match trackArtIndex with
                 | none => ""
                 | some i => ((values[i]?).map jsTrim).getD "",
               duration := 180 }
      else none

/-- The column numbers that the track loop runs through. -/
def trackNumbers : List Nat := List.range' 1 12

/-- What one round of the row loop of `parseCSV` does: it skips the line, it adds an album,
or it raises. -/
inductive RowResult where
  | skip
  | album (a : Album)
  | raise
deriving DecidableEq

/-- One round of the row loop of `parseCSV`. -/
def parseRow (cm : CaseMapping) (headers : List String) (albumIdIndex : Nat)
    (lockIndex : Option Nat) (line : String) : RowResult :=
  if !truthy (jsTrim line) then .skip
  else
    let values := parseCSVLine line
    match values[albumIdIndex]? with
    | none => .skip
    | some idCell =>
      let albumId := jsTrim idCell
      if !truthy albumId then .skip
      else
        let lockValue := match lockIndex with
          | none => "no"
          | some i =>
            match values[i]? with
            | none => "no"
            | some v => if truthy v then cm.toLowerCase (jsTrim v) else "no"
        let download := match jsIndexOf headers "Download" with
          | none => true
          | some i =>
            match values[i]? with
            | none => true
            | some v => if truthy v then decide (cm.toLowerCase (jsTrim v) = "yes") else true
        match cellStrict values (jsIndexOf headers "Album Art"),
            cellStrict values (jsIndexOf headers "Stripe Payment Links") with
        | some albumArt, some paymentLink =>
          .album
            { id := albumId,
              domain := cellOr values (jsIndexOf headers "DOMAIN") "",
              title := cellOr values (jsIndexOf headers "Album Title") albumId,
              albumArt := albumArt,
              theme := cellOr values (jsIndexOf headers "Theme") "theme-default",
              lock := decide (lockValue = "yes"),
              download := download,
              paymentLink := paymentLink,
              price := "",
              tracks := trackNumbers.filterMap (trackAt cm headers values) }
        | _, _ => .raise

/-- The row loop of `parseCSV` over the data lines; `none` when a round raises. -/
def parseRows (cm : CaseMapping) (headers : List String) (albumIdIndex : Nat)
    (lockIndex : Option Nat) : List String → AlbumMap → Option AlbumMap
  | [], albums => some albums
  | line :: rest, albums =>
    match parseRow cm headers albumIdIndex lockIndex line with
    | .skip => parseRows cm headers albumIdIndex lockIndex rest albums
    | .album a => parseRows cm headers albumIdIndex lockIndex rest (albums.set a.id a)
    | .raise => none

/-- The method `parseCSV(csvText)`. Its `catch` branch returns the sample dataset. -/
def parseCSV (cm : CaseMapping) (csvText : String) : AlbumMap :=
  match jsSplit csvText (Char.ofNat 10) with
  | [] => getSampleAlbumData
  | [_] => getSampleAlbumData
  | headerLine :: dataLines =>
    let headers := (jsSplit headerLine (Char.ofNat 44)).map jsTrim
    match jsIndexOf headers "AlbumID" with
    | none => getSampleAlbumData
    | some albumIdIndex =>
      match parseRows cm headers albumIdIndex (jsIndexOf headers "Lock") dataLines
          AlbumMap.empty with
      | none => getSampleAlbumData
      | some albums => if albums.own.isEmpty then getSampleAlbumData else albums

/-! ## Properties of the albums that the data source delivers -/

/-- The own properties are keyed without repetition, each album under its own id. -/
def AlbumMap.wellKeyed (m : AlbumMap) : Prop :=
  (m.own.map Prod.fst).Nodup ∧ ∀ x ∈ m.own, x.2.id = x.1

/-- The track ids of an album increase strictly along the list and lie between 1 and 12. -/
def trackIdsOrdered (a : Album) : Prop :=
  (a.tracks.map Track.id).Pairwise (fun x y => x < y) ∧ ∀ t ∈ a.tracks, 1 ≤ t.id ∧ t.id ≤ 12

/-- A sheet with one locked album whose `Track 1` cell is empty. -/
def exampleSheet : String :=
  "AlbumID,Lock,Theme,Track 1,Track 2,Track 3\nalb,yes,,,https://x.org/a/second-song.mp3, https://x.org/a/third.ogg "

/-- The album that `parseCSV` builds from the data row of `exampleSheet`. -/
def exampleAlbum : Album :=
  { id := "alb", domain := "", title := "alb", albumArt := "", theme := "theme-default",
    lock := true, download := true, paymentLink := "", price := "",
    tracks :=
      [{ id := 2, title := "Second Song", src := "https://x.org/a/second-song.mp3", art := "",
         duration := 180 },
       { id := 3, title := "Third", src := "https://x.org/a/third.ogg", art := "",
         duration := 180 }] }

/-! ## Reading of the claims on `parseCSVLine` -/

/-- The characters of a line with every double quote deleted. -/
def deleteQuotes (cs : List Char) : List Char :=
  cs.filter (fun c => c != Char.ofNat 34)

/-- The locked album without a payment link. -/
def unlinkedAlbum : Album := { lockedAlbum with id := "album003", paymentLink := "" }

/-- The album without a payment link is loaded into a fresh player on the full page. -/
def unlinkedLoaded : MediaPlayer :=
  ((freshPlayer Storage.empty).loadAlbumData (some unlinkedAlbum) 0).state

/-- A store that holds a purchase record of the album `album002` only. -/
def oneRecord : Storage := Storage.empty.setItem (purchaseKey "album002") "purchased-1"

/-! ## The album selector

`AlbumSelector` in `src/old/albumSelector.js`. Its `albumsData` is an object from album ids to
albums, `{}` at first and then what the data source delivered. The `select` element and the
address of the page, which `loadAlbum` also updates, are presentation and are left out. -/

/-- What `loadAlbumData` reads from a value that is not an album record (a function or an
object of `Object.prototype`, a string, `true`, an array): each of the fields `paymentLink`,
`tracks`, `title`, `theme`, `lock`, `price` and `id` is `undefined`, and the store key built
from the `id` ends in "undefined". -/
def undefinedAlbum : Album :=
  { id := "undefined", domain := "", title := "", albumArt := "", theme := "", lock := false,
    download := false, paymentLink := "", price := "", tracks := [] }

/-- The argument of `loadAlbumData` as the player reads it; `none` is a falsy value. -/
def JsValue.asAlbumData (v : JsValue) : Option Album :=
  if v.truthy then
    match v with
    | .album a => some a
    | _ => some undefinedAlbum
  else none

/-- The object of class `AlbumSelector`, with the log of the calls that it makes:
`loadCalls` holds the arguments of the calls of `mediaPlayer.loadAlbumData`, and
`errorMessages` the arguments of the calls of `showErrorMessage`, in order. -/
structure AlbumSelector where
  mediaPlayer : MediaPlayer
  currentAlbumId : Option String
  albumsData : AlbumMap
  loadCalls : List JsValue
  errorMessages : List String

/-- The constructor `new AlbumSelector(mediaPlayer)`. -/
def AlbumSelector.construct (mediaPlayer : MediaPlayer) : AlbumSelector :=
  { mediaPlayer := mediaPlayer, currentAlbumId := none, albumsData := AlbumMap.empty,
    loadCalls := [], errorMessages := [] }

/-- The message that `loadAlbum` shows when it fails. -/
def loadFailedMessage (albumId : String) : String :=
  "Failed to load album \"" ++ albumId ++ "\". Please try another album."

/-- The method `loadAlbum(albumId)`; `none` is a `null` or `undefined` argument, and `now` is
the value of `Date.now()` during the call. An exception raised inside the `try` block, by the
`throw` statement or by `loadAlbumData`, is caught and reported with `showErrorMessage`. -/
def AlbumSelector.loadAlbum (s : AlbumSelector) (albumId : Option String) (now : Nat) :
    AlbumSelector :=
  match albumId with
  | none => s
  | some albumId =>
    if !truthy albumId || decide (s.currentAlbumId = some albumId) then s
    else
      match (s.albumsData.get albumId).filter JsValue.truthy with
      | none => { s with errorMessages := s.errorMessages ++ [loadFailedMessage albumId] }
      | some albumData =>
        let s := { s with currentAlbumId := some albumId,
                          loadCalls := s.loadCalls ++ [albumData] }
        match s.mediaPlayer.loadAlbumData albumData.asAlbumData now with
        | .ok p => { s with mediaPlayer := p }
        | .threw p =>
          { s with mediaPlayer := p,
                   errorMessages := s.errorMessages ++ [loadFailedMessage albumId] }

/-- The selector on a fresh player once the sample dataset has been fetched. -/
def sampleSelector : AlbumSelector :=
  { AlbumSelector.construct (freshPlayer Storage.empty) with albumsData := getSampleAlbumData }

/-! ## Reading of the claims on `extractTrackTitle` -/

theorem getElem?_modifyAt {α : Type} (f : α → α) (l : List α) (i j : Nat) :
    (modifyAt f i l)[j]? = if i = j then (l[j]?).map f else l[j]? := by
  induction l generalizing i j with
  | nil => cases i <;> simp [modifyAt]
  | cons x xs ih =>
    cases i with
    | zero =>
      cases j with
      | zero => simp [modifyAt]
      | succ j => simp [modifyAt]
    | succ i =>
      cases j with
      | zero => simp [modifyAt]
      | succ j => simp [modifyAt, ih]

theorem length_modifyAt {α : Type} (f : α → α) (l : List α) (i : Nat) :
    (modifyAt f i l).length = l.length := by
  induction l generalizing i with
  | nil => cases i <;> simp [modifyAt]
  | cons x xs ih => cases i <;> simp [modifyAt, ih]

theorem purchaseToken_ne_empty (now : Nat) : purchaseToken now ≠ "" := by
  intro h
  have hlen := congrArg String.length h
  simp only [purchaseToken, String.length_append] at hlen
  have h10 : "purchased-".length = 10 := by decide
  have h0 : "".length = 0 := by decide
  omega

theorem truthy_purchaseToken (now : Nat) : truthy (purchaseToken now) = true := by
  simp [truthy, purchaseToken_ne_empty]

/-! ## The preview cutoff -/

/-- C1. The `timeupdate` listener of a track stops playback (the audio is paused and rewound to
position 0, `currentlyPlaying` is cleared, `showPurchasePrompt` is invoked) exactly when
`isPurchased` is false and `audio.currentTime >= PREVIEW_DURATION`; otherwise it leaves the
player as it is. -/
theorem timeupdate_cutoff_iff (p : MediaPlayer) (i : Nat) (audio : TrackElement)
    (h : p.elements[i]? = some audio) :
    ((p.isPurchased = false ∧ PREVIEW_DURATION ≤ audio.currentTime) →
      (p.onTimeUpdate i).elements[i]? =
          some { audio with paused := true, currentTime := 0, playing := false } ∧
        (p.onTimeUpdate i).currentlyPlaying = none ∧
        (p.onTimeUpdate i).effects = p.effects ++ [Effect.purchasePrompt]) ∧
    (¬ (p.isPurchased = false ∧ PREVIEW_DURATION ≤ audio.currentTime) →
      p.onTimeUpdate i = p) ∧
    ((p.onTimeUpdate i).effects = p.effects ++ [Effect.purchasePrompt] ↔
      (p.isPurchased = false ∧ PREVIEW_DURATION ≤ audio.currentTime)) := by
  have hyes : (p.isPurchased = false ∧ PREVIEW_DURATION ≤ audio.currentTime) →
      (p.onTimeUpdate i).elements[i]? =
          some { audio with paused := true, currentTime := 0, playing := false } ∧
        (p.onTimeUpdate i).currentlyPlaying = none ∧
        (p.onTimeUpdate i).effects = p.effects ++ [Effect.purchasePrompt] := by
    rintro ⟨hp, ht⟩
    have hc : (!p.isPurchased && decide (PREVIEW_DURATION ≤ audio.currentTime)) = true := by
      simp [hp, ht]
    simp only [MediaPlayer.onTimeUpdate, h, hc, if_true, MediaPlayer.showPurchasePrompt]
    cases hb : p.purchaseButton <;> simp [getElem?_modifyAt, h]
  have hno : ¬ (p.isPurchased = false ∧ PREVIEW_DURATION ≤ audio.currentTime) →
      p.onTimeUpdate i = p := by
    intro hn
    have hc : (!p.isPurchased && decide (PREVIEW_DURATION ≤ audio.currentTime)) = false := by
      cases hp : p.isPurchased
      · simp [hp] at hn
        simp [hn]
      · simp
    simp [MediaPlayer.onTimeUpdate, h, hc]
  refine ⟨hyes, hno, ?_, fun hc => (hyes hc).2.2⟩
  intro he
  by_contra hn
  rw [hno hn] at he
  simpa using congrArg List.length he

/-- C1, at the 225-second track of the locked album when its position is 30: playback is
stopped and rewound. -/
theorem timeupdate_cutoff_iff_witness :
    previewAtLimit.elements[0]? =
        some { newTrackElement
                 { id := 1, title := "Whenua & Home", duration := 225,
                   src := "https://bilingualbeats.ai/wp-content/uploads/2025/04/Whenua-Home-.mp3",
                   art := "https://via.placeholder.com/100x100?text=Track+1" }
               with paused := false, playing := true, currentTime := 30 } ∧
      ((previewAtLimit.onTimeUpdate 0).elements[0]?).map (fun e => (e.paused, e.currentTime)) =
        some (true, 0) ∧
      (previewAtLimit.onTimeUpdate 0).currentlyPlaying = none := by
  have hel : previewAtLimit.elements[0]? =
        some { newTrackElement
                 { id := 1, title := "Whenua & Home", duration := 225,
                   src := "https://bilingualbeats.ai/wp-content/uploads/2025/04/Whenua-Home-.mp3",
                   art := "https://via.placeholder.com/100x100?text=Track+1" }
               with paused := false, playing := true, currentTime := 30 } := by
    rfl
  have hp : previewAtLimit.isPurchased = false := by rfl
  have h := (timeupdate_cutoff_iff previewAtLimit 0 _ hel).1
    ⟨hp, by simp [PREVIEW_DURATION, newTrackElement]⟩
  exact ⟨hel, by rw [h.1]; rfl, h.2.1⟩

/-- C2. When `isPurchased` is true the `timeupdate` listener of any track, whatever its
duration and whatever the playback position, applies no cutoff: it leaves the player as it is,
in particular the audio's `paused` flag and `currentTime` and the field `currentlyPlaying`; and
a position update by the browser is kept as it is. -/
theorem timeupdate_no_cutoff_when_purchased (p : MediaPlayer) (i : Nat)
    (hp : p.isPurchased = true) :
    p.onTimeUpdate i = p ∧
      (p.onTimeUpdate i).elements[i]? = p.elements[i]? ∧
      (p.onTimeUpdate i).currentlyPlaying = p.currentlyPlaying ∧
      (p.onTimeUpdate i).effects = p.effects ∧
      (∀ (t : ℚ) (e : TrackElement), p.elements[i]? = some e → e.paused = false →
        (p.timeUpdate i t).elements[i]? = some { e with currentTime := t } ∧
        (p.timeUpdate i t).currentlyPlaying = p.currentlyPlaying) := by
  have key : ∀ q : MediaPlayer, q.isPurchased = true → q.onTimeUpdate i = q := by
    intro q hq
    unfold MediaPlayer.onTimeUpdate
    cases q.elements[i]? <;> simp [hq]
  refine ⟨key p hp, by rw [key p hp], by rw [key p hp], by rw [key p hp], ?_⟩
  intro t e he hpa
  let els := modifyAt (fun e => if e.paused then e else { e with currentTime := t }) i p.elements
  have hk := key { p with elements := els } hp
  unfold MediaPlayer.timeUpdate
  rw [hk]
  simp [els, getElem?_modifyAt, he, hpa]

/-- C2, at the 225-second track of the free album when its position is 200. -/
theorem timeupdate_no_cutoff_when_purchased_witness :
    freePlayback.isPurchased = true ∧ freePlayback.onTimeUpdate 0 = freePlayback ∧
      (freePlayback.elements[0]?).map (fun e => (e.track.duration, e.paused, e.currentTime)) =
        some (225, false, 200) :=
  ⟨rfl, (timeupdate_no_cutoff_when_purchased freePlayback 0 rfl).1, rfl⟩

/-! ## Unlocking -/

theorem unlockFullAccess_isPurchased (p : MediaPlayer) (now : Nat) :
    (p.unlockFullAccess now).state.isPurchased = p.isPurchased := by
  cases hm : p.mediaPlayerModule <;> cases hv : p.previewSection <;>
    cases hs : p.purchasedSection <;> cases hb : p.downloadAllButton <;>
    cases hc : p.currentAlbum <;>
    simp [MediaPlayer.unlockFullAccess, Outcome.state, hm, hv, hs, hb, hc]

theorem unlockFullAccess_of_domPresent (p : MediaPlayer) (now : Nat) (a : Album)
    (hd : p.domPresent = true) (ha : p.currentAlbum = some a) :
    ∃ q, p.unlockFullAccess now = .ok q ∧
      q.localStorage = p.localStorage.setItem (purchaseKey a.id) (purchaseToken now) ∧
      q.isPurchased = p.isPurchased ∧ q.currentAlbum = some a ∧ q.domPresent = true ∧
      q.currentlyPlaying = p.currentlyPlaying ∧ q.effects = p.effects := by
  unfold MediaPlayer.domPresent at hd
  cases hm : p.mediaPlayerModule <;> cases hv : p.previewSection <;>
    cases hs : p.purchasedSection <;> cases hb : p.downloadAllButton <;>
    simp [hm, hv, hs, hb] at hd
  simp [MediaPlayer.unlockFullAccess, MediaPlayer.domPresent, hm, hv, hs, hb, ha]

/-- C4. In a player with a current album and with the elements that `unlockFullAccess` uses
present, `unlockFullAccess` returns, and afterwards the storage maps the key
`"albumPurchaseToken-" + currentAlbum.id` to the non-empty string `"purchased-" + Date.now()`
and every other key to what it held before; `checkPurchaseStatus` and `verifyPurchase` then
treat that entry as a purchase and set `isPurchased`. -/
theorem unlockFullAccess_persists_token (p : MediaPlayer) (now later : Nat) (a : Album)
    (hd : p.domPresent = true) (ha : p.currentAlbum = some a) :
    ∃ q, p.unlockFullAccess now = .ok q ∧
      q.localStorage.getItem ("albumPurchaseToken-" ++ a.id) =
        some ("purchased-" ++ toString now) ∧
      "purchased-" ++ toString now ≠ "" ∧
      (∀ k, k ≠ "albumPurchaseToken-" ++ a.id →
        q.localStorage.getItem k = p.localStorage.getItem k) ∧
      (q.checkPurchaseStatus later).state.isPurchased = true ∧
      (q.verifyPurchase (q.localStorage.getItem ("albumPurchaseToken-" ++ a.id))
        later).state.isPurchased = true := by
  obtain ⟨q, hq, hls, -, hqa, -, -, -⟩ := unlockFullAccess_of_domPresent p now a hd ha
  have hget : q.localStorage.getItem ("albumPurchaseToken-" ++ a.id) =
      some ("purchased-" ++ toString now) := by
    simp [hls, Storage.getItem, Storage.setItem, purchaseKey, purchaseToken]
  have htr : truthyOpt (some ("purchased-" ++ toString now)) = true :=
    truthy_purchaseToken now
  refine ⟨q, hq, hget, purchaseToken_ne_empty now, ?_, ?_, ?_⟩
  · intro k hk
    simp [hls, Storage.getItem, Storage.setItem, purchaseKey, hk]
  · have hget2 : q.localStorage.getItem (purchaseKey a.id) =
        some ("purchased-" ++ toString now) := hget
    simp only [MediaPlayer.checkPurchaseStatus, hqa, hget2, htr, if_true,
      MediaPlayer.verifyPurchase]
    rw [unlockFullAccess_isPurchased]
  · simp only [hget, MediaPlayer.verifyPurchase, htr, if_true]
    rw [unlockFullAccess_isPurchased]

/-- C4, at the locked album loaded into a fresh player on the full page. -/
theorem unlockFullAccess_persists_token_witness :
    lockedLoaded.domPresent = true ∧ lockedLoaded.currentAlbum = some lockedAlbum ∧
      ∃ q, lockedLoaded.unlockFullAccess 1700000000000 = .ok q ∧
        q.localStorage.getItem "albumPurchaseToken-album001" = some "purchased-1700000000000" :=
  ⟨rfl, rfl,
    (unlockFullAccess_persists_token lockedLoaded 1700000000000 0 lockedAlbum rfl rfl).imp
      fun _ h => ⟨h.1, by simpa [lockedAlbum] using h.2.1⟩⟩

/-- C3 fails on the code. `unlockFullAccess` never writes `isPurchased`: after the locked album
is loaded and the user confirms the simulated purchase on the purchase button, the call returns,
the token is stored and the download buttons are enabled, but `isPurchased` is still false, so
a click on a download button downloads nothing and playback is still cut off at 30 seconds. -/
theorem purchase_click_leaves_isPurchased_false :
    lockedLoaded.domPresent = true ∧ lockedLoaded.isPurchased = false ∧
      (lockedLoaded.purchaseClick true 1700000000000).completes = true ∧
      afterPurchase.localStorage.getItem "albumPurchaseToken-album001" =
        some "purchased-1700000000000" ∧
      (afterPurchase.elements[0]?).map (fun e => e.downloadDisabled) = some false ∧
      afterPurchase.isPurchased = false ∧
      (afterPurchase.downloadClick 0).effects = afterPurchase.effects ∧
      (((afterPurchase.playPauseClick 0).timeUpdate 0 30).elements[0]?).map
        (fun e => (e.paused, e.currentTime)) = some (true, 0) := by
  refine ⟨rfl, rfl, rfl, ?_, rfl, rfl, rfl, ?_⟩
  · decide
  · rfl

/-- C5 fails on the code for the same reason as C3: calling `unlockFullAccess` twice on the
loaded locked album leaves `isPurchased` false. The stored record is present and non-empty
after one call and after two. -/
theorem unlockFullAccess_twice_leaves_isPurchased_false :
    lockedLoaded.currentAlbum = some lockedAlbum ∧ lockedLoaded.isPurchased = false ∧
      (lockedLoaded.unlockFullAccess 1).completes = true ∧
      ((lockedLoaded.unlockFullAccess 1).state.unlockFullAccess 2).completes = true ∧
      ((lockedLoaded.unlockFullAccess 1).state.unlockFullAccess 2).state.isPurchased = false ∧
      truthyOpt ((lockedLoaded.unlockFullAccess 1).state.localStorage.getItem
        "albumPurchaseToken-album001") = true ∧
      truthyOpt (((lockedLoaded.unlockFullAccess 1).state.unlockFullAccess 2).state.localStorage.getItem
        "albumPurchaseToken-album001") = true := by
  refine ⟨rfl, rfl, rfl, rfl, rfl, ?_, ?_⟩ <;> decide

/-! ## Loading an album -/

theorem setTheme_gate (p : MediaPlayer) (themeClass : String) :
    (p.setTheme themeClass).state.gate = p.gate := by
  cases hm : p.mediaPlayerModule <;> cases hb : p.themeButtons <;>
    by_cases hv : validToken themeClass = true <;>
    simp [MediaPlayer.setTheme, Outcome.state, MediaPlayer.gate, hm, hb, hv]

theorem setTheme_elements (p : MediaPlayer) (themeClass : String) :
    (p.setTheme themeClass).state.elements = p.elements := by
  cases hm : p.mediaPlayerModule <;> cases hb : p.themeButtons <;>
    by_cases hv : validToken themeClass = true <;>
    simp [MediaPlayer.setTheme, Outcome.state, hm, hb, hv]

theorem setupPurchaseButton_gate (p : MediaPlayer) :
    p.setupPurchaseButton.state.gate = p.gate := by
  cases hb : p.purchaseButton with
  | none => simp [MediaPlayer.setupPurchaseButton, Outcome.state, hb]
  | some b =>
    cases ha : p.currentAlbum with
    | none => simp [MediaPlayer.setupPurchaseButton, Outcome.state, MediaPlayer.gate, hb, ha]
    | some a =>
      cases ht : b.purchaseText <;> by_cases hp : truthy a.price = true <;>
        simp [MediaPlayer.setupPurchaseButton, Outcome.state, MediaPlayer.gate, hb, ha, ht, hp]

theorem setupPurchaseButton_elements (p : MediaPlayer) :
    p.setupPurchaseButton.state.elements = p.elements := by
  cases hb : p.purchaseButton with
  | none => simp [MediaPlayer.setupPurchaseButton, Outcome.state, hb]
  | some b =>
    cases ha : p.currentAlbum with
    | none => simp [MediaPlayer.setupPurchaseButton, Outcome.state, hb, ha]
    | some a =>
      cases ht : b.purchaseText <;> by_cases hp : truthy a.price = true <;>
        simp [MediaPlayer.setupPurchaseButton, Outcome.state, hb, ha, ht, hp]

theorem setupDownloadAllButton_gate (p : MediaPlayer) :
    p.setupDownloadAllButton.gate = p.gate := by
  cases hb : p.downloadAllButton <;>
    simp [MediaPlayer.setupDownloadAllButton, MediaPlayer.gate, hb]

theorem setupDownloadAllButton_elements (p : MediaPlayer) :
    p.setupDownloadAllButton.elements = p.elements := by
  cases hb : p.downloadAllButton <;> simp [MediaPlayer.setupDownloadAllButton, hb]

theorem andThen_state_ok (o : Outcome) (f : MediaPlayer → Outcome) (q : MediaPlayer)
    (h : o.andThen f = .ok q) : ∃ r, o = .ok r ∧ f r = .ok q := by
  cases o with
  | ok r => exact ⟨r, rfl, h⟩
  | threw r => simp [Outcome.andThen] at h

theorem andThen_gate (o : Outcome) (f : MediaPlayer → Outcome)
    (h : ∀ r, (f r).state.gate = r.gate) : (o.andThen f).state.gate = o.state.gate := by
  cases o with
  | ok r => simpa [Outcome.andThen, Outcome.state] using h r
  | threw r => rfl

theorem createTracks_gate (p : MediaPlayer) : p.createTracks.state.gate = p.gate := by
  unfold MediaPlayer.createTracks
  by_cases hg : p.tracksGrid = true
  · rw [if_pos hg, andThen_gate _ (fun r => Outcome.ok r.setupDownloadAllButton)
      (fun r => setupDownloadAllButton_gate r), setupPurchaseButton_gate]
    rfl
  · rw [if_neg hg]
    rfl

theorem loadAlbumDataReset_ok (p : MediaPlayer) (a : Album) (q : MediaPlayer)
    (h : p.loadAlbumDataReset a = .ok q) :
    q.isPurchased = (!a.lock) ∧
      q.localStorage = p.localStorage.removeItem (purchaseKey a.id) ∧
      q.currentAlbum = some a ∧ q.effects = p.effects ∧
      q.currentlyPlaying = p.currentlyPlaying ∧ q.TRACKS_DATA = a.tracks ∧
      q.STRIPE_PAYMENT_LINK = a.paymentLink ∧ q.elements = p.elements ∧
      q.tracksGrid = p.tracksGrid ∧ q.previewSection = p.previewSection ∧
      q.purchasedSection = p.purchasedSection := by
  unfold MediaPlayer.loadAlbumDataReset at h
  obtain ⟨r, hr, hq⟩ := andThen_state_ok _ _ _ h
  have hq2 := (Outcome.ok.inj hq).symm
  have hg : r.gate = (Outcome.state (.ok r)).gate := rfl
  have he : r.elements = (Outcome.state (.ok r)).elements := rfl
  rw [← hr] at hg he
  by_cases ht : truthy a.theme = true
  · rw [if_pos ht, setTheme_gate] at hg
    rw [if_pos ht, setTheme_elements] at he
    simp only [MediaPlayer.gate, Gate.mk.injEq] at hg
    obtain ⟨-, h2, h3, h4, h5, h6, h7, h8, h9, h10⟩ := hg
    subst hq2
    exact ⟨rfl, by rw [h4], h2, h5, h3, h6, h7, he, h8, h9, h10⟩
  · rw [if_neg ht] at hg he
    simp only [MediaPlayer.gate, Gate.mk.injEq, Outcome.state] at hg he
    obtain ⟨-, h2, h3, h4, h5, h6, h7, h8, h9, h10⟩ := hg
    subst hq2
    exact ⟨rfl, by rw [h4], h2, h5, h3, h6, h7, he, h8, h9, h10⟩

theorem checkPurchaseStatus_no_record (p : MediaPlayer) (a : Album) (now : Nat)
    (ha : p.currentAlbum = some a) (hn : p.localStorage.getItem (purchaseKey a.id) = none) :
    p.checkPurchaseStatus now =
      .ok { p with effects := p.effects ++ [Effect.storageRead (purchaseKey a.id)] } := by
  simp [MediaPlayer.checkPurchaseStatus, ha, hn, truthyOpt]

theorem removeItem_getItem (ls : Storage) (k : String) :
    (ls.removeItem k).getItem k = none := by
  simp [Storage.removeItem, Storage.getItem]

theorem unlockFullAccess_frame (p : MediaPlayer) (now : Nat) :
    (p.unlockFullAccess now).state.currentAlbum = p.currentAlbum ∧
      (p.unlockFullAccess now).state.currentlyPlaying = p.currentlyPlaying ∧
      (p.unlockFullAccess now).state.effects = p.effects := by
  cases hm : p.mediaPlayerModule <;> cases hv : p.previewSection <;>
    cases hs : p.purchasedSection <;> cases hb : p.downloadAllButton <;>
    cases hc : p.currentAlbum <;>
    simp [MediaPlayer.unlockFullAccess, Outcome.state, hm, hv, hs, hb, hc]

theorem clearFirstPlaying_getElem? (l : List TrackElement) (j : Nat) (e' : TrackElement)
    (h : (clearFirstPlaying l)[j]? = some e') :
    ∃ e, l[j]? = some e ∧ e'.paused = e.paused ∧ e'.currentTime = e.currentTime ∧
      e'.attached = e.attached := by
  induction l generalizing j with
  | nil => simp [clearFirstPlaying] at h
  | cons x xs ih =>
    unfold clearFirstPlaying at h
    split at h
    · cases j with
      | zero =>
        simp at h
        subst h
        exact ⟨x, by simp, rfl, rfl, rfl⟩
      | succ j =>
        simp at h
        exact ⟨e', by simpa using h, rfl, rfl, rfl⟩
    · cases j with
      | zero =>
        simp at h
        subst h
        exact ⟨x, by simp, rfl, rfl, rfl⟩
      | succ j =>
        simp at h
        obtain ⟨e, he, h1⟩ := ih j h
        exact ⟨e, by simpa using he, h1⟩

theorem stopCurrent_getElem? (cp : Option Nat) (i : Nat) (els : List TrackElement) (j : Nat)
    (e' : TrackElement) (h : (stopCurrent cp i els)[j]? = some e') :
    ∃ e, els[j]? = some e ∧ e'.attached = e.attached ∧
      ((cp = some j ∧ j ≠ i ∧ e'.paused = true ∧ e'.currentTime = 0) ∨
        ((cp = some j → j = i) ∧ e'.paused = e.paused ∧ e'.currentTime = e.currentTime)) := by
  unfold stopCurrent at h
  cases cp with
  | none => exact ⟨e', h, rfl, Or.inr ⟨by simp, rfl, rfl⟩⟩
  | some c =>
    by_cases hc : c = i
    · simp only [hc, ne_eq, not_true_eq_false, if_false] at h
      subst hc
      exact ⟨e', h, rfl, Or.inr ⟨fun hj => (Option.some.inj hj).symm, rfl, rfl⟩⟩
    · simp only [ne_eq, hc, not_false_eq_true, if_true] at h
      obtain ⟨m, hm, m1, m2, m3⟩ := clearFirstPlaying_getElem? _ j e' h
      rw [getElem?_modifyAt] at hm
      by_cases hcj : c = j
      · subst hcj
        simp only [if_true] at hm
        cases he : els[c]? with
        | none => simp [he] at hm
        | some e =>
          simp only [he, Option.map_some', Option.some.injEq] at hm
          subst hm
          exact ⟨e, rfl, m3, Or.inl ⟨rfl, hc, m1, m2⟩⟩
      · simp only [hcj, if_false] at hm
        refine ⟨m, hm, m3, Or.inr ⟨?_, m1, m2⟩⟩
        intro hj
        exact absurd (Option.some.inj hj) hcj

theorem preview_pos : (0 : ℚ) < PREVIEW_DURATION := by
  norm_num [PREVIEW_DURATION]

theorem playPauseClick_inv (p : MediaPlayer) (i : Nat) (h1 : p.exclusive)
    (h2 : p.withinPreview) :
    (p.playPauseClick i).exclusive ∧ (p.playPauseClick i).withinPreview := by
  unfold MediaPlayer.playPauseClick
  cases hi : p.elements[i]? with
  | none => exact ⟨h1, h2⟩
  | some a0 =>
    simp only []
    -- an element of the list after `stopCurrent` that is not paused is element `i`
    have hS : ∀ (j : Nat) (e' : TrackElement),
        (stopCurrent p.currentlyPlaying i p.elements)[j]? = some e' → e'.paused = false →
        j = i ∧ p.currentlyPlaying = some i := by
      intro j e' hj hp
      obtain ⟨e, he, -, hd⟩ := stopCurrent_getElem? _ _ _ _ _ hj
      rcases hd with ⟨-, -, hpa, -⟩ | ⟨hc, hpa, -⟩
      · rw [hp] at hpa
        cases hpa
      · have hcp := h1 j e he (hpa ▸ hp)
        have := hc hcp
        subst this
        exact ⟨rfl, hcp⟩
    have hT : p.isPurchased = false → ∀ (j : Nat) (e' : TrackElement),
        (stopCurrent p.currentlyPlaying i p.elements)[j]? = some e' → e'.attached = true →
        e'.currentTime < PREVIEW_DURATION := by
      intro hpur j e' hj hat
      obtain ⟨e, he, hatt, hd⟩ := stopCurrent_getElem? _ _ _ _ _ hj
      rcases hd with ⟨-, -, -, ht⟩ | ⟨-, -, ht⟩
      · rw [ht]
        exact preview_pos
      · rw [ht]
        exact h2 hpur j e he (hatt ▸ hat)
    cases hs : (stopCurrent p.currentlyPlaying i p.elements)[i]? with
    | none =>
      refine ⟨?_, ?_⟩
      · intro j e' hj hp
        obtain ⟨hji, hcp⟩ := hS j e' hj hp
        subst hji
        exact hcp
      · exact hT
    | some audio =>
      by_cases hpa : audio.paused = true
      · simp only [hpa, if_true]
        refine ⟨?_, ?_⟩
        · intro j e' hj hp
          simp only [getElem?_modifyAt] at hj
          by_cases hij : i = j
          · subst hij
            rfl
          · simp only [hij, if_false] at hj
            exact absurd (hS j e' hj hp).1.symm hij
        · intro hpur j e' hj hat
          simp only [getElem?_modifyAt] at hj
          by_cases hij : i = j
          · subst hij
            simp only [if_true, hs, Option.map_some', Option.some.injEq] at hj
            subst hj
            exact hT hpur i audio hs hat
          · simp only [hij, if_false] at hj
            exact hT hpur j e' hj hat
      · simp only [hpa, Bool.false_eq_true, if_false]
        refine ⟨?_, ?_⟩
        · intro j e' hj hp
          simp only [getElem?_modifyAt] at hj
          by_cases hij : i = j
          · subst hij
            simp only [if_true, hs, Option.map_some', Option.some.injEq] at hj
            subst hj
            simp at hp
          · simp only [hij, if_false] at hj
            exact absurd (hS j e' hj hp).1.symm hij
        · intro hpur j e' hj hat
          simp only [getElem?_modifyAt] at hj
          by_cases hij : i = j
          · subst hij
            simp only [if_true, hs, Option.map_some', Option.some.injEq] at hj
            subst hj
            exact hT hpur i audio hs hat
          · simp only [hij, if_false] at hj
            exact hT hpur j e' hj hat

theorem showPurchasePrompt_frame (q : MediaPlayer) :
    q.showPurchasePrompt.elements = q.elements ∧
      q.showPurchasePrompt.currentlyPlaying = q.currentlyPlaying ∧
      q.showPurchasePrompt.isPurchased = q.isPurchased := by
  cases hb : q.purchaseButton <;> simp [MediaPlayer.showPurchasePrompt, hb]

theorem timeUpdate_inv (p : MediaPlayer) (i : Nat) (t : ℚ) (h1 : p.exclusive)
    (h2 : p.withinPreview) (hg : p.onGrid (.timeUpdate i t)) :
    (p.timeUpdate i t).exclusive ∧ (p.timeUpdate i t).withinPreview := by
  obtain ⟨e0, he0, hat0⟩ := hg
  simp only [TrackEvent.target] at he0
  unfold MediaPlayer.timeUpdate MediaPlayer.onTimeUpdate
  simp only [getElem?_modifyAt, if_true, he0, Option.map_some']
  -- the elements after the position update
  have hA : ∀ (j : Nat) (e' : TrackElement),
      (modifyAt (fun e => if e.paused = true then e else { e with currentTime := t }) i
        p.elements)[j]? = some e' →
      ∃ e, p.elements[j]? = some e ∧ e'.paused = e.paused ∧ e'.attached = e.attached ∧
        (i ≠ j → e'.currentTime = e.currentTime) := by
    intro j e' hj
    rw [getElem?_modifyAt] at hj
    by_cases hij : i = j
    · subst hij
      simp only [if_true, he0, Option.map_some', Option.some.injEq] at hj
      subst hj
      refine ⟨e0, he0, ?_, ?_, fun h => absurd rfl h⟩ <;> split <;> rfl
    · simp only [hij, if_false] at hj
      exact ⟨e', hj, rfl, rfl, fun _ => rfl⟩
  by_cases hcut : (!p.isPurchased &&
      decide (PREVIEW_DURATION ≤
        (if e0.paused = true then e0 else { e0 with currentTime := t }).currentTime)) = true
  · simp only [hcut, if_true]
    simp only [Bool.and_eq_true, Bool.not_eq_true', decide_eq_true_eq] at hcut
    obtain ⟨hpur, hle⟩ := hcut
    have hplaying : e0.paused = false := by
      cases hp0 : e0.paused
      · rfl
      · rw [hp0] at hle
        simp only [if_true] at hle
        exact absurd (h2 hpur i e0 he0 hat0) (not_lt.mpr hle)
    have hcp : p.currentlyPlaying = some i := h1 i e0 he0 hplaying
    obtain ⟨f1, f2, f3⟩ := showPurchasePrompt_frame
      { p with
        elements := modifyAt
          (fun e => { e with paused := true, currentTime := 0, playing := false }) i
          (modifyAt (fun e => if e.paused = true then e else { e with currentTime := t }) i
            p.elements),
        currentlyPlaying := none }
    refine ⟨?_, ?_⟩
    · intro j e' hj hp
      rw [f1] at hj
      simp only [getElem?_modifyAt] at hj
      by_cases hij : i = j
      · subst hij
        simp only [if_true, he0, Option.map_some', Option.some.injEq] at hj
        subst hj
        simp at hp
      · simp only [hij, if_false] at hj
        have := h1 j e' hj hp
        rw [hcp] at this
        exact absurd (Option.some.inj this) hij
    · intro hpur' j e' hj hat
      rw [f1] at hj
      simp only [getElem?_modifyAt] at hj
      by_cases hij : i = j
      · subst hij
        simp only [if_true, he0, Option.map_some', Option.some.injEq] at hj
        subst hj
        exact preview_pos
      · simp only [hij, if_false] at hj
        exact h2 hpur j e' hj hat
  · simp only [hcut, Bool.false_eq_true, if_false]
    refine ⟨?_, ?_⟩
    · intro j e' hj hp
      obtain ⟨e, he, hpa, -, -⟩ := hA j e' hj
      exact h1 j e he (hpa ▸ hp)
    · intro hpur j e' hj hat
      obtain ⟨e, he, -, hatt, htime⟩ := hA j e' hj
      by_cases hij : i = j
      · subst hij
        have hj' := hj
        rw [getElem?_modifyAt] at hj'
        simp only [if_true, he0, Option.map_some', Option.some.injEq] at hj'
        have hpur' : p.isPurchased = false := hpur
        simp only [hpur', Bool.not_false, Bool.true_and, decide_eq_true_eq, hj'] at hcut
        exact not_le.mp hcut
      · rw [htime hij]
        exact h2 hpur j e he (hatt ▸ hat)

theorem ended_inv (p : MediaPlayer) (i : Nat) (h1 : p.exclusive) (h2 : p.withinPreview) :
    (p.ended i).exclusive ∧ (p.ended i).withinPreview := by
  unfold MediaPlayer.ended
  cases he0 : p.elements[i]? with
  | none => exact ⟨h1, h2⟩
  | some e0 =>
    by_cases hp0 : e0.paused = true
    · simp only [hp0, if_true]
      exact ⟨h1, h2⟩
    · simp only [hp0, Bool.false_eq_true, if_false]
      have hcp : p.currentlyPlaying = some i := h1 i e0 he0 (by simpa using hp0)
      unfold MediaPlayer.onEnded
      simp only [getElem?_modifyAt, if_true, he0, Option.map_some']
      refine ⟨?_, ?_⟩
      · intro j e' hj hp
        simp only [getElem?_modifyAt] at hj
        by_cases hij : i = j
        · subst hij
          simp only [if_true, he0, Option.map_some', Option.some.injEq] at hj
          subst hj
          simp at hp
        · simp only [hij, if_false] at hj
          have := h1 j e' hj hp
          rw [hcp] at this
          exact absurd (Option.some.inj this) hij
      · intro hpur j e' hj hat
        simp only [getElem?_modifyAt] at hj
        by_cases hij : i = j
        · subst hij
          simp only [if_true, he0, Option.map_some', Option.some.injEq] at hj
          subst hj
          exact preview_pos
        · simp only [hij, if_false] at hj
          exact h2 hpur j e' hj hat

theorem map_attached_modifyAt (f : TrackElement → TrackElement)
    (hf : ∀ e, (f e).attached = e.attached) (i : Nat) (l : List TrackElement) :
    (modifyAt f i l).map TrackElement.attached = l.map TrackElement.attached := by
  induction l generalizing i with
  | nil => cases i <;> rfl
  | cons x xs ih => cases i <;> simp [modifyAt, hf, ih]

theorem map_attached_clearFirstPlaying (l : List TrackElement) :
    (clearFirstPlaying l).map TrackElement.attached = l.map TrackElement.attached := by
  induction l with
  | nil => rfl
  | cons x xs ih =>
    unfold clearFirstPlaying
    split <;> simp [ih]

theorem step_attached (p : MediaPlayer) (ev : TrackEvent) :
    (p.step ev).elements.map TrackElement.attached = p.elements.map TrackElement.attached ∧
      (p.step ev).isPurchased = p.isPurchased := by
  cases ev with
  | playPauseClick i =>
    simp only [MediaPlayer.step, MediaPlayer.playPauseClick]
    have hS : (stopCurrent p.currentlyPlaying i p.elements).map TrackElement.attached =
        p.elements.map TrackElement.attached := by
      unfold stopCurrent
      cases p.currentlyPlaying with
      | none => rfl
      | some c =>
        simp only []
        split
        · rw [map_attached_clearFirstPlaying]
          exact map_attached_modifyAt _ (fun _ => by rfl) _ _
        · rfl
    cases p.elements[i]? with
    | none => exact ⟨rfl, rfl⟩
    | some a0 =>
      simp only []
      cases (stopCurrent p.currentlyPlaying i p.elements)[i]? with
      | none => exact ⟨hS, rfl⟩
      | some audio =>
        simp only []
        split
        · exact ⟨(map_attached_modifyAt _ (fun _ => by rfl) _ _).trans hS, rfl⟩
        · exact ⟨(map_attached_modifyAt _ (fun _ => by rfl) _ _).trans hS, rfl⟩
  | timeUpdate i t =>
    simp only [MediaPlayer.step, MediaPlayer.timeUpdate, MediaPlayer.onTimeUpdate]
    have hA : (modifyAt (fun e => if e.paused = true then e else { e with currentTime := t }) i
        p.elements).map TrackElement.attached = p.elements.map TrackElement.attached :=
      map_attached_modifyAt _ (fun e => by split <;> rfl) _ _
    split
    · exact ⟨hA, rfl⟩
    · split
      · rename_i q _ _ _
        obtain ⟨f1, -, f3⟩ := showPurchasePrompt_frame
          { p with
            elements := modifyAt
              (fun e => { e with paused := true, currentTime := 0, playing := false }) i
              (modifyAt (fun e => if e.paused = true then e else { e with currentTime := t }) i
                p.elements),
            currentlyPlaying := none }
        exact ⟨by rw [f1]; exact (map_attached_modifyAt _ (fun _ => by rfl) _ _).trans hA, f3⟩
      · exact ⟨hA, rfl⟩
  | ended i =>
    simp only [MediaPlayer.step, MediaPlayer.ended, MediaPlayer.onEnded]
    split
    · exact ⟨rfl, rfl⟩
    · split
      · exact ⟨rfl, rfl⟩
      · split
        · exact ⟨map_attached_modifyAt _ (fun _ => by rfl) _ _, rfl⟩
        · exact ⟨(map_attached_modifyAt _ (fun _ => by rfl) _ _).trans
            (map_attached_modifyAt _ (fun _ => by rfl) _ _), rfl⟩

theorem onGrid_iff (p : MediaPlayer) (ev : TrackEvent) :
    p.onGrid ev ↔ (p.elements.map TrackElement.attached)[ev.target]? = some true := by
  unfold MediaPlayer.onGrid
  rw [List.getElem?_map]
  cases p.elements[ev.target]? <;> simp

theorem step_inv (p : MediaPlayer) (ev : TrackEvent) (h1 : p.exclusive)
    (h2 : p.withinPreview) (hg : p.onGrid ev) :
    (p.step ev).exclusive ∧ (p.step ev).withinPreview := by
  cases ev with
  | playPauseClick i => exact playPauseClick_inv p i h1 h2
  | timeUpdate i t => exact timeUpdate_inv p i t h1 h2 hg
  | ended i => exact ended_inv p i h1 h2

theorem run_inv (events : List TrackEvent) (p : MediaPlayer) (h1 : p.exclusive)
    (h2 : p.withinPreview) (hg : ∀ ev ∈ events, p.onGrid ev) :
    (p.run events).exclusive ∧ (p.run events).withinPreview := by
  induction events generalizing p with
  | nil => exact ⟨h1, h2⟩
  | cons ev rest ih =>
    obtain ⟨s1, s2⟩ := step_inv p ev h1 h2 (hg ev (List.mem_cons_self _ _))
    have hrest : ∀ ev' ∈ rest, (p.step ev).onGrid ev' := by
      intro ev' hev'
      rw [onGrid_iff, (step_attached p ev).1, ← onGrid_iff]
      exact hg ev' (List.mem_cons_of_mem _ hev')
    exact ih (p.step ev) s1 s2 hrest

/-- C10. Start from a state in which no audio is playing and in which, if the album is not
purchased, no track of the grid is at or beyond the preview limit (as is the case when the
tracks have just been created). After any sequence of play/pause clicks, time updates (with
the preview cutoffs they trigger) and ends of playback on the tracks of the grid, at most one
audio is not paused, and an audio that is not paused is the one `currentlyPlaying` refers to. -/
theorem mutual_exclusion (p : MediaPlayer) (events : List TrackEvent)
    (hquiet : ∀ e ∈ p.elements, e.paused = true)
    (hprev : p.isPurchased = false →
      ∀ e ∈ p.elements, e.attached = true → e.currentTime < PREVIEW_DURATION)
    (hgrid : ∀ ev ∈ events, ∃ e, p.elements[ev.target]? = some e ∧ e.attached = true) :
    (∀ (i j : Nat) (ei ej : TrackElement),
        (p.run events).elements[i]? = some ei → (p.run events).elements[j]? = some ej →
        ei.paused = false → ej.paused = false → i = j) ∧
      (∀ (i : Nat) (e : TrackElement), (p.run events).elements[i]? = some e →
        e.paused = false → (p.run events).currentlyPlaying = some i) := by
  have h1 : p.exclusive := by
    intro j e hj hp
    have := hquiet e (List.getElem?_mem hj)
    rw [hp] at this
    cases this
  have h2 : p.withinPreview := by
    intro hpur j e hj hat
    exact hprev hpur e (List.getElem?_mem hj) hat
  obtain ⟨r1, -⟩ := run_inv events p h1 h2 hgrid
  refine ⟨?_, r1⟩
  intro i j ei ej hi hj hpi hpj
  have a := r1 i ei hi hpi
  have b := r1 j ej hj hpj
  rw [a] at b
  exact Option.some.inj b

/-- C10, at the locked album just loaded and the events of `sessionEvents`, after which the
second track is the one playing. -/
theorem mutual_exclusion_witness :
    (lockedLoaded.run sessionEvents).currentlyPlaying = some 1 ∧
      ((lockedLoaded.run sessionEvents).elements.map (fun e => (e.paused, e.currentTime))) =
        [(true, 0), (false, 12)] ∧
      (∀ (i : Nat) (e : TrackElement), (lockedLoaded.run sessionEvents).elements[i]? = some e →
        e.paused = false → (lockedLoaded.run sessionEvents).currentlyPlaying = some i) := by
  have hel : lockedLoaded.elements = lockedAlbum.tracks.map newTrackElement := rfl
  refine ⟨rfl, rfl, (mutual_exclusion lockedLoaded sessionEvents ?_ ?_ ?_).2⟩
  · intro e he
    rw [hel] at he
    simp [lockedAlbum, newTrackElement] at he
    rcases he with rfl | rfl <;> rfl
  · intro _ e he _
    rw [hel] at he
    simp [lockedAlbum, newTrackElement] at he
    rcases he with rfl | rfl <;> exact preview_pos
  · intro ev hev
    simp [sessionEvents] at hev
    rcases hev with rfl | rfl | rfl | rfl | rfl | rfl <;>
      first
      | exact ⟨_, (rfl : lockedLoaded.elements[0]? = some _), rfl⟩
      | exact ⟨_, (rfl : lockedLoaded.elements[1]? = some _), rfl⟩


/-! ## The state right after an album is loaded -/

theorem createTracks_elements_ok (r c : MediaPlayer) (hg : r.tracksGrid = true)
    (h : r.createTracks = .ok c) : c.elements = r.rebuildGrid.elements := by
  unfold MediaPlayer.createTracks at h
  rw [if_pos hg] at h
  obtain ⟨s, hs, hc⟩ := andThen_state_ok _ _ _ h
  have h1 := setupPurchaseButton_elements r.rebuildGrid
  rw [hs] at h1
  have hc2 := (Outcome.ok.inj hc).symm
  subst hc2
  rw [setupDownloadAllButton_elements]
  exact h1

theorem unlockFullAccess_elements (p : MediaPlayer) (now : Nat) :
    (p.unlockFullAccess now).state.elements = p.elements ∨
      (p.unlockFullAccess now).state.elements = p.elements.map unlockItem := by
  cases hm : p.mediaPlayerModule <;> cases hv : p.previewSection <;>
    cases hs : p.purchasedSection <;> cases hb : p.downloadAllButton <;>
    cases hc : p.currentAlbum <;>
    simp [MediaPlayer.unlockFullAccess, Outcome.state, hm, hv, hs, hb, hc]

theorem rebuildGrid_fresh (r : MediaPlayer) :
    ∀ e ∈ r.rebuildGrid.elements,
      e.paused = true ∧ (e.attached = true → e.currentTime = 0) := by
  intro e he
  simp only [MediaPlayer.rebuildGrid, List.mem_append, List.mem_map] at he
  rcases he with ⟨e0, -, rfl⟩ | ⟨t, -, rfl⟩
  · exact ⟨rfl, fun hat => by simp at hat⟩
  · exact ⟨rfl, fun _ => rfl⟩

/-- When `loadAlbumData` returns on a page that has a tracks grid, no audio is playing (the
audios of the former grid were paused when they were removed) and every track element of the
grid is new, at position 0. This is a starting state of the kind the mutual exclusion theorem
asks for. -/
theorem loadAlbumData_grid_fresh (p : MediaPlayer) (a : Album) (now : Nat) (q : MediaPlayer)
    (hg : p.tracksGrid = true) (h : p.loadAlbumData (some a) now = .ok q) :
    ∀ e ∈ q.elements, e.paused = true ∧ (e.attached = true → e.currentTime = 0) := by
  simp only [MediaPlayer.loadAlbumData] at h
  obtain ⟨r, hr, hq⟩ := andThen_state_ok _ _ _ h
  obtain ⟨-, r2, r3, -, -, -, -, -, r9, -⟩ := loadAlbumDataReset_ok p a r hr
  unfold MediaPlayer.loadAlbumDataRender at hq
  obtain ⟨c, hc, hq⟩ := andThen_state_ok _ _ _ hq
  have hel := createTracks_elements_ok r c (r9.trans hg) hc
  have hgate := createTracks_gate r
  rw [hc] at hgate
  simp only [MediaPlayer.gate, Gate.mk.injEq, Outcome.state] at hgate
  obtain ⟨-, g2, -, g4, -⟩ := hgate
  have hfresh := rebuildGrid_fresh r
  rw [← hel] at hfresh
  cases hl : a.lock
  · simp only [hl, Bool.not_false, if_true] at hq
    have hu := unlockFullAccess_elements c now
    rw [hq] at hu
    simp only [Outcome.state] at hu
    rcases hu with hu | hu
    · rw [hu]
      exact hfresh
    · rw [hu]
      intro e he
      simp only [List.mem_map] at he
      obtain ⟨e0, he0, rfl⟩ := he
      obtain ⟨f1, f2⟩ := hfresh e0 he0
      unfold unlockItem
      split
      · exact ⟨f1, fun _ => f2 (by assumption)⟩
      · exact ⟨f1, f2⟩
  · simp only [hl, Bool.not_true, Bool.false_eq_true, if_false] at hq
    rw [checkPurchaseStatus_no_record _ a now (by simpa using g2.trans r3)
      (by simp only [g4, r2]; exact removeItem_getItem _ _)] at hq
    have hq2 := (Outcome.ok.inj hq).symm
    subst hq2
    exact hfresh

/-! ## Switching tracks -/

theorem length_clearFirstPlaying (l : List TrackElement) :
    (clearFirstPlaying l).length = l.length := by
  induction l with
  | nil => rfl
  | cons x xs ih =>
    unfold clearFirstPlaying
    split <;> simp [ih]

theorem clearFirstPlaying_getElem?_of (l : List TrackElement) (j : Nat) (e : TrackElement)
    (h : l[j]? = some e) :
    ∃ e', (clearFirstPlaying l)[j]? = some e' ∧ e'.paused = e.paused ∧
      e'.currentTime = e.currentTime ∧ e'.attached = e.attached := by
  have hj : j < (clearFirstPlaying l).length := by
    rw [length_clearFirstPlaying]
    exact (List.getElem?_eq_some.mp h).1
  obtain ⟨e', he'⟩ : ∃ e', (clearFirstPlaying l)[j]? = some e' :=
    ⟨_, List.getElem?_eq_getElem hj⟩
  obtain ⟨e0, he0, h1, h2, h3⟩ := clearFirstPlaying_getElem? l j e' he'
  rw [h] at he0
  cases he0
  exact ⟨e', he', h1, h2, h3⟩

/-- C11. Let A and B be distinct tracks, A the one `currentlyPlaying` refers to and B paused.
The play click on B first pauses A and rewinds it to position 0 while B is still paused, and
then starts B at the position it had and makes B the `currentlyPlaying` track. -/
theorem play_click_stops_current_first (p : MediaPlayer) (a b : Nat) (ea eb : TrackElement)
    (hab : a ≠ b) (hcp : p.currentlyPlaying = some a) (ha : p.elements[a]? = some ea)
    (hb : p.elements[b]? = some eb) (hpb : eb.paused = true) :
    (∃ ea' eb', (stopCurrent p.currentlyPlaying b p.elements)[a]? = some ea' ∧
        (stopCurrent p.currentlyPlaying b p.elements)[b]? = some eb' ∧
        ea'.paused = true ∧ ea'.currentTime = 0 ∧
        eb'.paused = true ∧ eb'.currentTime = eb.currentTime) ∧
      (p.playPauseClick b).elements =
        modifyAt (fun e => { e with paused := false, playing := true }) b
          (stopCurrent p.currentlyPlaying b p.elements) ∧
      (∃ ea' eb', (p.playPauseClick b).elements[a]? = some ea' ∧
        (p.playPauseClick b).elements[b]? = some eb' ∧
        ea'.paused = true ∧ ea'.currentTime = 0 ∧
        eb'.paused = false ∧ eb'.currentTime = eb.currentTime) ∧
      (p.playPauseClick b).currentlyPlaying = some b := by
  -- the list after A was stopped
  have hstop : stopCurrent p.currentlyPlaying b p.elements =
      clearFirstPlaying
        (modifyAt (fun e => { e with paused := true, currentTime := 0 }) a p.elements) := by
    simp [stopCurrent, hcp, hab]
  have hA : (modifyAt (fun e => { e with paused := true, currentTime := 0 }) a p.elements)[a]? =
      some { ea with paused := true, currentTime := 0 } := by
    simp [getElem?_modifyAt, ha]
  have hB : (modifyAt (fun e => { e with paused := true, currentTime := 0 }) a p.elements)[b]? =
      some eb := by
    simp [getElem?_modifyAt, hab, hb]
  obtain ⟨ea', hea', a1, a2, -⟩ := clearFirstPlaying_getElem?_of _ a _ hA
  obtain ⟨eb', heb', b1, b2, -⟩ := clearFirstPlaying_getElem?_of _ b _ hB
  rw [← hstop] at hea' heb'
  have hpb' : eb'.paused = true := b1.trans hpb
  have hres : p.playPauseClick b =
      { p with
        elements := modifyAt (fun e => { e with paused := false, playing := true }) b
          (stopCurrent p.currentlyPlaying b p.elements),
        currentlyPlaying := some b } := by
    simp [MediaPlayer.playPauseClick, hb, heb', hpb']
  refine ⟨⟨ea', eb', hea', heb', a1, a2, hpb', b2⟩, by rw [hres], ?_, by rw [hres]⟩
  refine ⟨ea', { eb' with paused := false, playing := true }, ?_, ?_, a1, a2, rfl, b2⟩
  · rw [hres]
    simp [getElem?_modifyAt, hab.symm, hea']
  · rw [hres]
    simp [getElem?_modifyAt, heb']

/-- C11, at the locked album with the first track playing and a click on the second. -/
theorem play_click_stops_current_first_witness :
    (lockedLoaded.playPauseClick 0).currentlyPlaying = some 0 ∧
      ((lockedLoaded.playPauseClick 0).playPauseClick 1).currentlyPlaying = some 1 ∧
      (((lockedLoaded.playPauseClick 0).playPauseClick 1).elements.map
        (fun e => (e.paused, e.currentTime))) = [(true, 0), (false, 0)] :=
  ⟨rfl,
    (play_click_stops_current_first (lockedLoaded.playPauseClick 0) 0 1 _ _ (by decide) rfl
      rfl rfl rfl).2.2.2,
    rfl⟩

/-! ## Downloads -/

theorem mem_scheduledDownloads (tracks : List Track) (t : Track) (ht : t ∈ tracks) :
    ∃ delay, Effect.scheduledDownload delay t.src (downloadName t) ∈
      scheduledDownloads tracks := by
  obtain ⟨n, hn, rfl⟩ := List.mem_iff_getElem.mp ht
  refine ⟨n * 500, ?_⟩
  unfold scheduledDownloads
  rw [List.mem_iff_getElem]
  refine ⟨n, by simp [hn], ?_⟩
  simp

/-- C12. The click listener of a track's download button adds a download of that track exactly
when `isPurchased` is true, and the click listener of the download-all button schedules a
download of every track of `TRACKS_DATA` exactly when `isPurchased` is true; when
`isPurchased` is false either listener leaves the player as it is. -/
theorem download_only_when_purchased (p : MediaPlayer) (i : Nat) (e : TrackElement)
    (h : p.elements[i]? = some e) :
    (p.downloadClick i).effects =
        p.effects ++
          (if p.isPurchased then [Effect.download e.track.src (downloadName e.track)] else []) ∧
      p.downloadAllClick.effects =
        p.effects ++
          (if (p.downloadAllButton.any fun b => b.listener) && p.isPurchased then
            scheduledDownloads p.TRACKS_DATA else []) ∧
      (∀ t ∈ p.TRACKS_DATA, ∃ delay,
        Effect.scheduledDownload delay t.src (downloadName t) ∈
          scheduledDownloads p.TRACKS_DATA) ∧
      (p.isPurchased = false → p.downloadClick i = p ∧ p.downloadAllClick = p) := by
  refine ⟨?_, ?_, fun t ht => mem_scheduledDownloads _ t ht, ?_⟩
  · cases hp : p.isPurchased <;> simp [MediaPlayer.downloadClick, h, hp]
  · cases hb : p.downloadAllButton with
    | none => simp [MediaPlayer.downloadAllClick, hb]
    | some b =>
      cases hl : b.listener <;> cases hp : p.isPurchased <;>
        simp [MediaPlayer.downloadAllClick, hb, hl, hp]
  · intro hp
    constructor
    · simp [MediaPlayer.downloadClick, h, hp]
    · cases hb : p.downloadAllButton <;> simp [MediaPlayer.downloadAllClick, hb, hp]

/-- C12, at the second track of the free album (purchased) and of the locked album (not
purchased). -/
theorem download_only_when_purchased_witness :
    freePlayback.isPurchased = true ∧
      (freePlayback.downloadClick 1).effects =
        [Effect.download
          "https://bilingualbeats.ai/wp-content/uploads/2025/04/Te-Moana-Calls.mp3"
          "02 - Te Moana Calls.mp3"] ∧
      freePlayback.downloadAllClick.effects =
        [Effect.scheduledDownload 0
          "https://bilingualbeats.ai/wp-content/uploads/2025/04/Whenua-Home-.mp3"
          "01 - Whenua & Home.mp3",
         Effect.scheduledDownload 500
          "https://bilingualbeats.ai/wp-content/uploads/2025/04/Te-Moana-Calls.mp3"
          "02 - Te Moana Calls.mp3"] ∧
      lockedLoaded.isPurchased = false ∧
      lockedLoaded.downloadClick 1 = lockedLoaded ∧
      lockedLoaded.downloadAllClick = lockedLoaded := by
  have hf := download_only_when_purchased freePlayback 1 _ (rfl : freePlayback.elements[1]? = some _)
  have hl := download_only_when_purchased lockedLoaded 1 _ (rfl : lockedLoaded.elements[1]? = some _)
  refine ⟨rfl, ?_, ?_, rfl, (hl.2.2.2 rfl).1, (hl.2.2.2 rfl).2⟩
  · rw [hf.1]
    decide
  · rw [hf.2.1]
    decide

/-! ## The unlocked state is terminal -/

theorem step_currentAlbum (p : MediaPlayer) (ev : TrackEvent) :
    (p.step ev).currentAlbum = p.currentAlbum := by
  cases ev with
  | playPauseClick i =>
    simp only [MediaPlayer.step, MediaPlayer.playPauseClick]
    repeat' split
    all_goals rfl
  | timeUpdate i t =>
    simp only [MediaPlayer.step, MediaPlayer.timeUpdate, MediaPlayer.onTimeUpdate,
      MediaPlayer.showPurchasePrompt]
    repeat' split
    all_goals rfl
  | ended i =>
    simp only [MediaPlayer.step, MediaPlayer.ended, MediaPlayer.onEnded]
    repeat' split
    all_goals rfl

theorem verifyPurchase_frame (p : MediaPlayer) (token : Option String) (now : Nat) :
    (p.isPurchased = true → (p.verifyPurchase token now).state.isPurchased = true) ∧
      (p.verifyPurchase token now).state.currentAlbum = p.currentAlbum := by
  unfold MediaPlayer.verifyPurchase
  split
  · rw [unlockFullAccess_isPurchased, (unlockFullAccess_frame _ now).1]
    exact ⟨fun _ => rfl, rfl⟩
  · exact ⟨fun h => h, rfl⟩

theorem checkPurchaseStatus_frame (p : MediaPlayer) (now : Nat) :
    (p.isPurchased = true → (p.checkPurchaseStatus now).state.isPurchased = true) ∧
      (p.checkPurchaseStatus now).state.currentAlbum = p.currentAlbum := by
  unfold MediaPlayer.checkPurchaseStatus
  split
  · exact ⟨fun h => h, rfl⟩
  · simp only []
    split
    · rename_i a _ _
      exact verifyPurchase_frame
        { p with effects := p.effects ++ [Effect.storageRead (purchaseKey a.id)] } _ now
    · exact ⟨fun h => h, rfl⟩

theorem purchaseClick_frame (p : MediaPlayer) (answer : Bool) (now : Nat) :
    (p.purchaseClick answer now).state.isPurchased = p.isPurchased ∧
      (p.purchaseClick answer now).state.currentAlbum = p.currentAlbum := by
  unfold MediaPlayer.purchaseClick
  split
  · exact ⟨rfl, rfl⟩
  · split
    · split
      · simp only []
        split
        · rw [unlockFullAccess_isPurchased, (unlockFullAccess_frame _ now).1]
          exact ⟨rfl, rfl⟩
        · exact ⟨rfl, rfl⟩
      · simp only []
        split
        · rw [unlockFullAccess_isPurchased, (unlockFullAccess_frame _ now).1]
          exact ⟨rfl, rfl⟩
        · exact ⟨rfl, rfl⟩
    · exact ⟨rfl, rfl⟩

theorem handle_frame (p : MediaPlayer) (ev : PlayerEvent) :
    (p.isPurchased = true → (p.handle ev).state.isPurchased = true) ∧
      (p.handle ev).state.currentAlbum = p.currentAlbum := by
  cases ev with
  | track ev =>
    exact ⟨fun h => (step_attached p ev).2.trans h, step_currentAlbum p ev⟩
  | downloadClick i =>
    simp only [MediaPlayer.handle, Outcome.state, MediaPlayer.downloadClick]
    repeat' split
    all_goals exact ⟨fun h => h, rfl⟩
  | downloadAllClick =>
    simp only [MediaPlayer.handle, Outcome.state, MediaPlayer.downloadAllClick]
    repeat' split
    all_goals exact ⟨fun h => h, rfl⟩
  | purchaseClick answer now =>
    exact ⟨fun h => (purchaseClick_frame p answer now).1.trans h,
      (purchaseClick_frame p answer now).2⟩
  | verifyPurchase token now => exact verifyPurchase_frame p token now
  | unlockFullAccess now =>
    exact ⟨fun h => (unlockFullAccess_isPurchased p now).trans h,
      (unlockFullAccess_frame p now).1⟩
  | checkPurchaseStatus now => exact checkPurchaseStatus_frame p now

theorem after_frame (events : List PlayerEvent) (p : MediaPlayer) :
    (p.isPurchased = true → (p.after events).isPurchased = true) ∧
      (p.after events).currentAlbum = p.currentAlbum := by
  induction events generalizing p with
  | nil => exact ⟨fun h => h, rfl⟩
  | cons ev rest ih =>
    obtain ⟨h1, h2⟩ := handle_frame p ev
    obtain ⟨i1, i2⟩ := ih (p.handle ev).state
    exact ⟨fun h => i1 (h1 h), i2.trans h2⟩

/-- C13. Once `isPurchased` is true, no sequence of player events (events on the tracks, clicks
on the download, download-all and purchase buttons, calls of `verifyPurchase`,
`unlockFullAccess` and `checkPurchaseStatus`) sets it back to false, whether or not a listener
raises on the way; the current album stays the same throughout. -/
theorem unlocked_is_terminal (p : MediaPlayer) (events : List PlayerEvent)
    (h : p.isPurchased = true) :
    (p.after events).isPurchased = true ∧ (p.after events).currentAlbum = p.currentAlbum ∧
      ∀ ev, ((p.after events).handle ev).state.isPurchased = true :=
  ⟨(after_frame events p).1 h, (after_frame events p).2,
    fun ev => (handle_frame (p.after events) ev).1 ((after_frame events p).1 h)⟩

/-- C13, at the free album and the events of `purchasedSession`. -/
theorem unlocked_is_terminal_witness :
    freePlayback.isPurchased = true ∧
      (freePlayback.after purchasedSession).isPurchased = true ∧
      (freePlayback.after purchasedSession).currentAlbum = some freeAlbum :=
  ⟨rfl, (unlocked_is_terminal freePlayback purchasedSession rfl).1,
    (unlocked_is_terminal freePlayback purchasedSession rfl).2.1⟩

/-! ## What loading leaves of the previous album -/

/-- C14 fails on the code. `loadAlbumData` and `createTracks` never assign `currentlyPlaying`:
when the locked album is loaded while the first track of the free album is playing, the call
returns with `currentlyPlaying` still referring to that track's audio, which is no longer in
the grid. -/
theorem loadAlbumData_keeps_currentlyPlaying :
    freePlayback.currentlyPlaying = some 0 ∧
      (freePlayback.elements[0]?).map (fun e => (e.attached, e.paused)) = some (true, false) ∧
      (freePlayback.loadAlbumData (some lockedAlbum) 7).completes = true ∧
      (freePlayback.loadAlbumData (some lockedAlbum) 7).state.currentlyPlaying = some 0 ∧
      ((freePlayback.loadAlbumData (some lockedAlbum) 7).state.elements.map
        (fun e => (e.track.id, e.attached))) =
        [(1, false), (2, false), (1, true), (2, true)] :=
  ⟨rfl, rfl, rfl, rfl, rfl⟩

/-! ## Verification of a token -/

/-- C15. The method `verifyPurchase(token)` accepts exactly the non-empty tokens: for a
non-empty token `isPurchased` is true afterwards, and for an empty or absent token the call
returns and leaves the player, in particular `isPurchased` and the storage, as it is. -/
theorem verifyPurchase_accepts_nonempty (p : MediaPlayer) (token : Option String) (now : Nat) :
    ((∃ s, token = some s ∧ s ≠ "") →
        (p.verifyPurchase token now).state.isPurchased = true) ∧
      ((token = none ∨ token = some "") → p.verifyPurchase token now = .ok p) ∧
      (p.isPurchased = false →
        ((p.verifyPurchase token now).state.isPurchased = true ↔ ∃ s, token = some s ∧ s ≠ "")) := by
  have hyes : (∃ s, token = some s ∧ s ≠ "") →
      (p.verifyPurchase token now).state.isPurchased = true := by
    rintro ⟨s, rfl, hs⟩
    have : truthyOpt (some s) = true := by simp [truthyOpt, truthy, hs]
    simp only [MediaPlayer.verifyPurchase, this, if_true]
    rw [unlockFullAccess_isPurchased]
  have hno : (token = none ∨ token = some "") → p.verifyPurchase token now = .ok p := by
    rintro (rfl | rfl) <;> simp [MediaPlayer.verifyPurchase, truthyOpt, truthy]
  refine ⟨hyes, hno, fun hp => ⟨fun h => ?_, hyes⟩⟩
  by_contra hn
  have hempty : token = none ∨ token = some "" := by
    cases token with
    | none => exact Or.inl rfl
    | some s =>
      right
      by_contra hs
      exact hn ⟨s, rfl, fun h0 => hs (by rw [h0])⟩
  rw [hno hempty] at h
  simp only [Outcome.state] at h
  rw [hp] at h
  cases h

/-! ## Missing elements -/

/-- C16 fails on the code. On a page that has the media player module but no preview section,
`unlockFullAccess` raises when it dereferences `this.previewSection`, and so does
`loadAlbumData` of an album with `lock = false`, which calls it. With `lock = true` the same
page is handled, because `loadAlbumData` guards its own uses of the two sections. -/
theorem unlockFullAccess_raises_without_preview_section :
    ( MediaPlayer.initialize (MediaPlayer.construct Storage.empty)
        pageWithoutPreviewSection).previewSection = none ∧
      (( MediaPlayer.initialize (MediaPlayer.construct Storage.empty)
        pageWithoutPreviewSection).unlockFullAccess 1).completes = false ∧
      (( MediaPlayer.initialize (MediaPlayer.construct Storage.empty)
        pageWithoutPreviewSection).loadAlbumData (some freeAlbum) 1).completes = false ∧
      (( MediaPlayer.initialize (MediaPlayer.construct Storage.empty)
        pageWithoutPreviewSection).loadAlbumData (some lockedAlbum) 1).completes = true :=
  ⟨rfl, rfl, rfl, rfl⟩

/-! ## Formatting a time -/

theorem upsert_ne_nil (k : String) (a : Album) (l : List (String × Album)) :
    upsert k a l ≠ [] := by
  cases l with
  | nil => simp [upsert]
  | cons x xs =>
    obtain ⟨k', a'⟩ := x
    unfold upsert
    split <;> simp

theorem mem_upsert (k : String) (a : Album) (l : List (String × Album)) (x : String × Album)
    (hx : x ∈ upsert k a l) : x = (k, a) ∨ x ∈ l := by
  induction l with
  | nil =>
    simp only [upsert, List.mem_singleton] at hx
    exact Or.inl hx
  | cons y ys ih =>
    obtain ⟨k', a'⟩ := y
    unfold upsert at hx
    split at hx
    · simp only [List.mem_cons] at hx
      rcases hx with hx | hx
      · exact Or.inl hx
      · exact Or.inr (List.mem_cons_of_mem _ hx)
    · simp only [List.mem_cons] at hx
      rcases hx with hx | hx
      · exact Or.inr (by rw [hx]; exact List.mem_cons_self _ _)
      · rcases ih hx with h | h
        · exact Or.inl h
        · exact Or.inr (List.mem_cons_of_mem _ h)

theorem keys_upsert (k : String) (a : Album) (l : List (String × Album)) :
    (upsert k a l).map Prod.fst =
      if k ∈ l.map Prod.fst then l.map Prod.fst else l.map Prod.fst ++ [k] := by
  induction l with
  | nil => simp [upsert]
  | cons y ys ih =>
    obtain ⟨k', a'⟩ := y
    unfold upsert
    by_cases hk : k' = k
    · simp [hk]
    · have hk2 : ¬ k = k' := fun h => hk h.symm
      simp only [hk, if_false, List.map_cons, ih, List.mem_cons, hk2, false_or]
      split <;> simp

theorem lookup_of_mem (l : List (String × Album)) (hn : (l.map Prod.fst).Nodup) (k : String)
    (a : Album) (h : (k, a) ∈ l) : l.lookup k = some a := by
  induction l with
  | nil => simp at h
  | cons y ys ih =>
    obtain ⟨k', a'⟩ := y
    simp only [List.map_cons, List.nodup_cons] at hn
    simp only [List.mem_cons, Prod.mk.injEq] at h
    rcases h with ⟨h1, h2⟩ | h
    · subst h1 h2
      simp [List.lookup]
    · have hne : k ≠ k' := by
        intro hkk
        apply hn.1
        rw [← hkk]
        exact List.mem_map.mpr ⟨(k, a), h, rfl⟩
      have hb : (k == k') = false := by simpa using hne
      simp only [List.lookup, hb]
      exact ih hn.2 h

theorem lookup_none_of_not_mem (l : List (String × Album)) (k : String)
    (h : k ∉ l.map Prod.fst) : l.lookup k = none := by
  induction l with
  | nil => rfl
  | cons y ys ih =>
    obtain ⟨k', a'⟩ := y
    simp only [List.map_cons, List.mem_cons, not_or] at h
    have hb : (k == k') = false := by simpa using h.1
    simp only [List.lookup, hb]
    exact ih h.2

theorem wellKeyed_set (m : AlbumMap) (a : Album) (h : m.wellKeyed) :
    (m.set a.id a).wellKeyed := by
  unfold AlbumMap.set
  split
  · exact h
  · refine ⟨?_, ?_⟩
    · simp only [keys_upsert]
      split
      · exact h.1
      · rename_i hk
        exact List.Nodup.append h.1 (List.nodup_singleton _) (by simpa using hk)
    · intro x hx
      rcases mem_upsert _ _ _ _ hx with hx | hx
      · rw [hx]
      · exact h.2 x hx

theorem parseRows_induct (Q : AlbumMap → Prop) (cm : CaseMapping) (headers : List String)
    (albumIdIndex : Nat) (lockIndex : Option Nat)
    (hstep : ∀ (m : AlbumMap) (line : String) (a : Album), Q m →
      parseRow cm headers albumIdIndex lockIndex line = .album a → Q (m.set a.id a)) :
    ∀ (lines : List String) (m r : AlbumMap), Q m →
      parseRows cm headers albumIdIndex lockIndex lines m = some r → Q r := by
  intro lines
  induction lines with
  | nil =>
    intro m r hm hr
    simp only [parseRows, Option.some.injEq] at hr
    exact hr ▸ hm
  | cons line rest ih =>
    intro m r hm hr
    unfold parseRows at hr
    split at hr
    · exact ih m r hm hr
    · rename_i a ha
      exact ih _ r (hstep m line a hm ha) hr
    · cases hr

theorem getSampleAlbumData_own_ne_nil : getSampleAlbumData.own ≠ [] := by
  simp [getSampleAlbumData]

theorem parseRows_no_album (cm : CaseMapping) (headers : List String) (albumIdIndex : Nat)
    (lockIndex : Option Nat) (lines : List String) (m : AlbumMap)
    (h : ∀ line ∈ lines, ∀ a, parseRow cm headers albumIdIndex lockIndex line ≠ .album a) :
    parseRows cm headers albumIdIndex lockIndex lines m = some m ∨
      parseRows cm headers albumIdIndex lockIndex lines m = none := by
  induction lines with
  | nil => exact Or.inl rfl
  | cons line rest ih =>
    unfold parseRows
    split
    · exact ih (fun l hl => h l (List.mem_cons_of_mem _ hl))
    · rename_i a ha
      exact absurd ha (h line (List.mem_cons_self _ _) a)
    · exact Or.inr rfl

/-- C17. For every text, `parseCSV` returns an object with at least one album (an exception
raised while the rows are read is caught inside and replaced by the sample dataset), and it
returns exactly the sample dataset when the text has fewer than two lines, when the header row
has no `AlbumID` column, and when no data row yields an album. -/
theorem parseCSV_total_with_fallback (cm : CaseMapping) (csvText : String) :
    (parseCSV cm csvText).own ≠ [] ∧
      ((jsSplit csvText (Char.ofNat 10)).length < 2 →
        parseCSV cm csvText = getSampleAlbumData) ∧
      (∀ headerLine dataLines, jsSplit csvText (Char.ofNat 10) = headerLine :: dataLines →
        jsIndexOf ((jsSplit headerLine (Char.ofNat 44)).map jsTrim) "AlbumID" = none →
        parseCSV cm csvText = getSampleAlbumData) ∧
      (∀ headerLine dataLines albumIdIndex,
        jsSplit csvText (Char.ofNat 10) = headerLine :: dataLines →
        jsIndexOf ((jsSplit headerLine (Char.ofNat 44)).map jsTrim) "AlbumID" =
          some albumIdIndex →
        (∀ line ∈ dataLines, ∀ a,
          parseRow cm ((jsSplit headerLine (Char.ofNat 44)).map jsTrim) albumIdIndex
            (jsIndexOf ((jsSplit headerLine (Char.ofNat 44)).map jsTrim) "Lock") line ≠
              .album a) →
        parseCSV cm csvText = getSampleAlbumData) := by
  refine ⟨?_, ?_, ?_, ?_⟩
  · unfold parseCSV
    split
    · exact getSampleAlbumData_own_ne_nil
    · exact getSampleAlbumData_own_ne_nil
    · simp only []
      split
      · exact getSampleAlbumData_own_ne_nil
      · split
        · exact getSampleAlbumData_own_ne_nil
        · split
          · exact getSampleAlbumData_own_ne_nil
          · rename_i albums _ hne
            intro h0
            apply hne
            rw [h0]
            rfl
  · intro hlen
    unfold parseCSV
    split
    · rfl
    · rfl
    · rename_i dataLines hne hs
      rw [hs] at hlen
      cases dataLines with
      | nil => exact absurd rfl hne
      | cons x xs =>
        simp only [List.length_cons] at hlen
        omega
  · intro headerLine dataLines hs hidx
    unfold parseCSV
    rw [hs]
    cases dataLines with
    | nil => rfl
    | cons d ds => simp only [hidx]
  · intro headerLine dataLines albumIdIndex hs hidx hrows
    unfold parseCSV
    rw [hs]
    cases dataLines with
    | nil => rfl
    | cons d ds =>
      simp only [hidx]
      rcases parseRows_no_album cm _ albumIdIndex _ (d :: ds) AlbumMap.empty hrows with h | h
      · rw [h]
        rfl
      · rw [h]

/-- C17, at the empty text, at a sheet without an `AlbumID` column, and at a sheet whose two
data rows are blank and without an album id. -/
theorem parseCSV_total_with_fallback_witness :
    parseCSV asciiCase "" = getSampleAlbumData ∧
      parseCSV asciiCase "Title,Lock\nx,yes" = getSampleAlbumData ∧
      parseCSV asciiCase "AlbumID,Lock\n   \n,yes" = getSampleAlbumData := by
  refine ⟨(parseCSV_total_with_fallback asciiCase "").2.1 (by decide),
    (parseCSV_total_with_fallback asciiCase "Title,Lock\nx,yes").2.2.1 "Title,Lock" ["x,yes"]
      (by decide) (by decide),
    (parseCSV_total_with_fallback asciiCase "AlbumID,Lock\n   \n,yes").2.2.2 "AlbumID,Lock"
      ["   ", ",yes"] 0 (by decide) (by decide) ?_⟩
  intro line hl a
  simp only [List.mem_cons, List.mem_singleton, List.not_mem_nil, or_false] at hl
  rcases hl with rfl | rfl
  · have h : parseRow asciiCase ((jsSplit "AlbumID,Lock" (Char.ofNat 44)).map jsTrim) 0
        (jsIndexOf ((jsSplit "AlbumID,Lock" (Char.ofNat 44)).map jsTrim) "Lock") "   " =
        .skip := by decide
    rw [h]
    exact fun h0 => RowResult.noConfusion h0
  · have h : parseRow asciiCase ((jsSplit "AlbumID,Lock" (Char.ofNat 44)).map jsTrim) 0
        (jsIndexOf ((jsSplit "AlbumID,Lock" (Char.ofNat 44)).map jsTrim) "Lock") ",yes" =
        .skip := by decide
    rw [h]
    exact fun h0 => RowResult.noConfusion h0

theorem exampleSheet_parsed :
    parseCSV asciiCase exampleSheet = { own := [("alb", exampleAlbum)], proto := none } := by
  decide

theorem getSampleAlbumData_wellKeyed : getSampleAlbumData.wellKeyed := by
  unfold AlbumMap.wellKeyed
  decide

theorem parseCSV_wellKeyed (cm : CaseMapping) (csvText : String) :
    (parseCSV cm csvText).wellKeyed := by
  unfold parseCSV
  split
  · exact getSampleAlbumData_wellKeyed
  · exact getSampleAlbumData_wellKeyed
  · simp only []
    split
    · exact getSampleAlbumData_wellKeyed
    · split
      · exact getSampleAlbumData_wellKeyed
      · rename_i albums hrows
        split
        · exact getSampleAlbumData_wellKeyed
        · refine parseRows_induct AlbumMap.wellKeyed cm _ _ _ ?_ _ AlbumMap.empty albums ?_ hrows
          · intro m line a hm _
            exact wellKeyed_set m a hm
          · exact ⟨List.nodup_nil, fun x hx => by simp [AlbumMap.empty] at hx⟩

/-- Under each of its keys the object returned by `parseCSV` holds an album whose id is that
key, and `getAlbumById` returns that album. For an identifier that is neither a key nor the
name of a property of `Object.prototype`, and an object whose prototype was not replaced,
`getAlbumById` returns `null`. -/
theorem parseCSV_keys_are_ids (cm : CaseMapping) (csvText : String) :
    (∀ k a, (k, a) ∈ (parseCSV cm csvText).own →
        a.id = k ∧ getAlbumById (parseCSV cm csvText) k = .album a) ∧
      (∀ k, (parseCSV cm csvText).proto = none → k ∉ (parseCSV cm csvText).keys →
        k ∉ objectPrototypeNames → getAlbumById (parseCSV cm csvText) k = .null) := by
  obtain ⟨hn, hid⟩ := parseCSV_wellKeyed cm csvText
  refine ⟨?_, ?_⟩
  · intro k a hk
    refine ⟨hid (k, a) hk, ?_⟩
    simp [getAlbumById, AlbumMap.get, lookup_of_mem _ hn k a hk, JsValue.truthy]
  · intro k hp hk hnames
    simp [getAlbumById, AlbumMap.get, lookup_none_of_not_mem _ k hk, hp, objectPrototypeGet,
      hnames]

/-- C18 fails on the code in its last part. Reading `albums[albumId]` goes on to the
prototype when `albumId` is not a key, so for the identifier `"constructor"` (and for
`"toString"`), which is not a key of the sample dataset nor of the object parsed from
`exampleSheet`, `getAlbumById` returns the inherited member and not `null`. -/
theorem getAlbumById_inherited_not_null :
    "constructor" ∉ getSampleAlbumData.keys ∧
      getAlbumById getSampleAlbumData "constructor" = .objectPrototypeMember "constructor" ∧
      getAlbumById getSampleAlbumData "constructor" ≠ .null ∧
      "toString" ∉ (parseCSV asciiCase exampleSheet).keys ∧
      getAlbumById (parseCSV asciiCase exampleSheet) "toString" =
        .objectPrototypeMember "toString" ∧
      getAlbumById getSampleAlbumData "album002" = .album sampleAlbum002 ∧
      getAlbumById getSampleAlbumData "album005" = .null := by
  rw [exampleSheet_parsed]
  decide

/-! ## Track ids -/

theorem trackAt_id (cm : CaseMapping) (headers values : List String) (j : Nat) (t : Track)
    (h : trackAt cm headers values j = some t) : t.id = j ∧ t.src ≠ "" := by
  unfold trackAt at h
  simp only [] at h
  split at h
  · cases h
  · split at h
    · cases h
    · split at h
      · rename_i htr
        simp only [Option.some.injEq] at h
        subst h
        exact ⟨rfl, by simpa [truthy] using htr⟩
      · cases h

theorem filterMap_ids_sublist (f : Nat → Option Track)
    (hf : ∀ j t, f j = some t → t.id = j) (l : List Nat) :
    ((l.filterMap f).map Track.id).Sublist l := by
  induction l with
  | nil => simp
  | cons j js ih =>
    cases hj : f j with
    | none =>
      rw [List.filterMap_cons_none hj]
      exact ih.cons _
    | some t =>
      rw [List.filterMap_cons_some hj, List.map_cons, hf j t hj]
      exact ih.cons₂ _

theorem trackIdsOrdered_filterMap (cm : CaseMapping) (headers values : List String)
    (a : Album) (h : a.tracks = trackNumbers.filterMap (trackAt cm headers values)) :
    trackIdsOrdered a := by
  have hsub := filterMap_ids_sublist (trackAt cm headers values)
    (fun j t ht => (trackAt_id cm headers values j t ht).1) trackNumbers
  rw [← h] at hsub
  refine ⟨List.Pairwise.sublist hsub (by decide), ?_⟩
  intro t ht
  have hmem : t.id ∈ trackNumbers := hsub.subset (List.mem_map.mpr ⟨t, ht, rfl⟩)
  simp only [trackNumbers, List.mem_range'_1] at hmem
  omega

theorem parseRow_tracks (cm : CaseMapping) (headers : List String) (albumIdIndex : Nat)
    (lockIndex : Option Nat) (line : String) (a : Album)
    (h : parseRow cm headers albumIdIndex lockIndex line = .album a) :
    a.tracks = trackNumbers.filterMap (trackAt cm headers (parseCSVLine line)) := by
  unfold parseRow at h
  split at h
  · cases h
  · simp only [] at h
    split at h
    · cases h
    · split at h
      · cases h
      · split at h
        · simp only [RowResult.album.injEq] at h
          rw [← h]
        · cases h

theorem parseCSV_trackIdsOrdered (cm : CaseMapping) (csvText : String) :
    ∀ x ∈ (parseCSV cm csvText).own, trackIdsOrdered x.2 := by
  have hsample : ∀ x ∈ getSampleAlbumData.own, trackIdsOrdered x.2 := by
    unfold trackIdsOrdered
    decide
  unfold parseCSV
  split
  · exact hsample
  · exact hsample
  · simp only []
    split
    · exact hsample
    · split
      · exact hsample
      · rename_i albums hrows
        split
        · exact hsample
        · refine parseRows_induct (fun m => ∀ x ∈ m.own, trackIdsOrdered x.2) cm _ _ _ ?_ _
            AlbumMap.empty albums ?_ hrows
          · intro m line a hm ha x hx
            unfold AlbumMap.set at hx
            split at hx
            · exact hm x hx
            · rcases mem_upsert _ _ _ _ hx with h | h
              · rw [h]
                exact trackIdsOrdered_filterMap cm _ _ a (parseRow_tracks cm _ _ _ line a ha)
              · exact hm x h
          · intro x hx
            simp [AlbumMap.empty] at hx

theorem position_le_of_increasing (l : List Nat) (b : Nat)
    (hp : l.Pairwise (fun x y => x < y)) (hb : ∀ x ∈ l, b ≤ x) :
    ∀ (i x : Nat), l[i]? = some x → b + i ≤ x := by
  induction l generalizing b with
  | nil => intro i x h; simp at h
  | cons y ys ih =>
    intro i x h
    rw [List.pairwise_cons] at hp
    cases i with
    | zero =>
      simp only [List.getElem?_cons_zero, Option.some.injEq] at h
      rw [← h]
      exact hb y (List.mem_cons_self _ _)
    | succ i =>
      simp only [List.getElem?_cons_succ] at h
      have hy := hb y (List.mem_cons_self _ _)
      have := ih (b + 1) hp.2 (fun z hz => by have := hp.1 z hz; omega) i x h
      omega

theorem intercalate_go_data (s : String) (l : List String) :
    ∀ acc : String, (String.intercalate.go acc s l).data =
      acc.data ++ (l.map (fun a => s.data ++ a.data)).flatten := by
  induction l with
  | nil => intro acc; simp [String.intercalate.go]
  | cons a l ih =>
    intro acc
    rw [String.intercalate.go, ih]
    simp [String.data_append, List.append_assoc]

/-- Joining a non-empty list and one more string puts the separator before the last one. -/
theorem intercalate_snoc_data (s : String) (l : List String) (hl : l ≠ []) (x : String) :
    (String.intercalate s (l ++ [x])).data = (String.intercalate s l).data ++ s.data ++ x.data := by
  cases l with
  | nil => exact absurd rfl hl
  | cons a l =>
    simp [String.intercalate, intercalate_go_data, List.append_assoc]

theorem intercalate_singleton (s x : String) : String.intercalate s [x] = x := by
  simp [String.intercalate, String.intercalate.go]

/-- The characters of the values joined by commas, when the current value would be pushed. -/
theorem joined_push_char (vals : List String) (cur : List Char) (c : Char) :
    (String.intercalate "," (vals ++ [String.mk (cur ++ [c])])).data =
      (String.intercalate "," (vals ++ [String.mk cur])).data ++ [c] := by
  cases vals with
  | nil => simp [intercalate_singleton]
  | cons a l =>
    rw [intercalate_snoc_data _ _ (by simp), intercalate_snoc_data _ _ (by simp)]
    simp [List.append_assoc]

theorem joined_push_value (vals : List String) (cur : List Char) :
    (String.intercalate "," ((vals ++ [String.mk cur]) ++ [String.mk []])).data =
      (String.intercalate "," (vals ++ [String.mk cur])).data ++ [Char.ofNat 44] := by
  rw [intercalate_snoc_data _ _ (by simp)]
  simp

theorem parseCSVLineLoop_joined (cs : List Char) :
    ∀ (q : Bool) (cur : List Char) (vals : List String),
      (String.intercalate "," (parseCSVLineLoop cs q cur vals)).data =
        (String.intercalate "," (vals ++ [String.mk cur])).data ++ deleteQuotes cs := by
  induction cs with
  | nil => intro q cur vals; simp [parseCSVLineLoop, deleteQuotes]
  | cons c cs ih =>
    intro q cur vals
    unfold parseCSVLineLoop
    by_cases h1 : c = Char.ofNat 34
    · simp only [h1, if_true]
      rw [ih]
      simp [deleteQuotes]
    · have hd : deleteQuotes (c :: cs) = c :: deleteQuotes cs := by
        simp [deleteQuotes, h1]
      simp only [h1, if_false]
      by_cases h2 : (c = Char.ofNat 44 && !q) = true
      · simp only [h2, if_true]
        have hc : c = Char.ofNat 44 := by
          simp only [Bool.and_eq_true, decide_eq_true_eq] at h2
          exact h2.1
        rw [ih, joined_push_value, hd, hc]
        simp [List.append_assoc]
      · simp only [h2, if_false, Bool.false_eq_true]
        rw [ih, joined_push_char, hd]
        simp [List.append_assoc]

theorem splitChars_ne_nil (sep : Char) (cs : List Char) : splitChars sep cs ≠ [] := by
  cases cs with
  | nil => simp [splitChars]
  | cons c cs =>
    unfold splitChars
    by_cases h : c = sep
    · simp [h]
    · simp only [h, if_false]
      cases splitChars sep cs <;> simp

/-- On a line without a double quote the loop splits at every comma. -/
theorem parseCSVLineLoop_eq_split (cs : List Char) :
    ∀ (cur : List Char) (vals : List String), Char.ofNat 34 ∉ cs →
      parseCSVLineLoop cs false cur vals =
        vals ++ (match splitChars (Char.ofNat 44) cs with
          | [] => [String.mk cur]
          | w :: ws => String.mk (cur ++ w) :: ws.map String.mk) := by
  induction cs with
  | nil => intro cur vals _; simp [parseCSVLineLoop, splitChars]
  | cons c cs ih =>
    intro cur vals h
    have h1 : c ≠ Char.ofNat 34 := fun e => h (e ▸ List.mem_cons_self _ _)
    have hcs : Char.ofNat 34 ∉ cs := fun e => h (List.mem_cons_of_mem _ e)
    unfold parseCSVLineLoop splitChars
    simp only [h1, if_false]
    by_cases h2 : c = Char.ofNat 44
    · simp only [h2, Bool.not_false, Bool.and_true, decide_True, if_true]
      rw [ih _ _ hcs]
      cases hs : splitChars (Char.ofNat 44) cs with
      | nil => exact absurd hs (splitChars_ne_nil _ _)
      | cons w ws => simp
    · simp only [h2, decide_False, Bool.false_and, if_false, Bool.false_eq_true]
      rw [ih _ _ hcs]
      cases hs : splitChars (Char.ofNat 44) cs with
      | nil => exact absurd hs (splitChars_ne_nil _ _)
      | cons w ws => simp

/-- C30: `parseCSVLine` only deletes quotes and splits on unquoted commas. For every line the
values joined by "," are the line with every double quote deleted; a line without a double
quote gives `line.split(",")`; and the doubled quote of the field `"a""b"` is dropped, the
value being `ab`. -/
theorem parseCSVLine_deletes_quotes_only (line : String) :
    String.intercalate "," (parseCSVLine line) = String.mk (deleteQuotes line.toList) ∧
    (Char.ofNat 34 ∉ line.toList → parseCSVLine line = jsSplit line (Char.ofNat 44)) ∧
    parseCSVLine "\"a\"\"b\"" = ["ab"] := by
  refine ⟨?_, ?_, by decide⟩
  · apply String.ext
    unfold parseCSVLine
    rw [parseCSVLineLoop_joined]
    simp [intercalate_singleton]
  · intro h
    unfold parseCSVLine jsSplit
    rw [parseCSVLineLoop_eq_split _ _ _ h]
    cases hs : splitChars (Char.ofNat 44) line.toList with
    | nil => exact absurd hs (splitChars_ne_nil _ _)
    | cons w ws => simp

/-- C30 at the line `a,"b,""c""",d`, and at the quote-free line `a,,b`. -/
theorem parseCSVLine_deletes_quotes_only_witness :
    String.intercalate "," (parseCSVLine "a,\"b,\"\"c\"\"\",d") = "a,b,c,d" ∧
    parseCSVLine "a,,b" = jsSplit "a,,b" (Char.ofNat 44) :=
  ⟨(parseCSVLine_deletes_quotes_only "a,\"b,\"\"c\"\"\",d").1,
    (parseCSVLine_deletes_quotes_only "a,,b").2.1 (by decide)⟩

/-! ## The albums built from the rows of a sheet -/

/-- Every album of the object that the row loop returns was there before or was built from one
of the lines. -/
theorem parseRows_mem_row (cm : CaseMapping) (headers : List String) (albumIdIndex : Nat)
    (lockIndex : Option Nat) (lines : List String) :
    ∀ (m r : AlbumMap), parseRows cm headers albumIdIndex lockIndex lines m = some r →
      ∀ x ∈ r.own, x ∈ m.own ∨
        ∃ line ∈ lines, parseRow cm headers albumIdIndex lockIndex line = .album x.2 := by
  induction lines with
  | nil =>
    intro m r hr x hx
    simp only [parseRows, Option.some.injEq] at hr
    exact Or.inl (hr ▸ hx)
  | cons line rest ih =>
    intro m r hr x hx
    unfold parseRows at hr
    split at hr
    · rcases ih m r hr x hx with h | ⟨l, hl, h⟩
      · exact Or.inl h
      · exact Or.inr ⟨l, List.mem_cons_of_mem _ hl, h⟩
    · rename_i a ha
      rcases ih _ r hr x hx with h | ⟨l, hl, h⟩
      · unfold AlbumMap.set at h
        split at h
        · exact Or.inl h
        · rcases mem_upsert _ _ _ _ h with h | h
          · exact Or.inr ⟨line, List.mem_cons_self _ _, by rw [h]; exact ha⟩
          · exact Or.inl h
      · exact Or.inr ⟨l, List.mem_cons_of_mem _ hl, h⟩
    · cases hr

/-- When the row loop ends without raising and with an album, `parseCSV` returns its object. -/
theorem parseCSV_of_rows (cm : CaseMapping) (csvText headerLine : String)
    (dataLines : List String) (albumIdIndex : Nat) (albums : AlbumMap)
    (hlines : jsSplit csvText (Char.ofNat 10) = headerLine :: dataLines)
    (hid : jsIndexOf ((jsSplit headerLine (Char.ofNat 44)).map jsTrim) "AlbumID" =
      some albumIdIndex)
    (hrows : parseRows cm ((jsSplit headerLine (Char.ofNat 44)).map jsTrim) albumIdIndex
      (jsIndexOf ((jsSplit headerLine (Char.ofNat 44)).map jsTrim) "Lock") dataLines
      AlbumMap.empty = some albums)
    (hne : albums.own ≠ []) : parseCSV cm csvText = albums := by
  unfold parseCSV
  rw [hlines]
  cases dataLines with
  | nil =>
    simp only [parseRows, Option.some.injEq] at hrows
    rw [← hrows] at hne
    exact absurd rfl hne
  | cons d ds =>
    simp only [hid, hrows]
    have : albums.own.isEmpty = false := by
      cases h : albums.own with
      | nil => exact absurd h hne
      | cons _ _ => rfl
    simp [this]

/-- The `lock` field of the album of a row: the `Lock` cell of the row decides it. -/
theorem parseRow_lock (cm : CaseMapping) (headers : List String) (albumIdIndex : Nat)
    (lockIndex : Option Nat) (line : String) (a : Album)
    (h : parseRow cm headers albumIdIndex lockIndex line = .album a) :
    (a.lock = true ↔ ∃ i v, lockIndex = some i ∧ (parseCSVLine line)[i]? = some v ∧ v ≠ "" ∧
      cm.toLowerCase (jsTrim v) = "yes") := by
  unfold parseRow at h
  split at h
  · cases h
  · simp only [] at h
    split at h
    · cases h
    · split at h
      · cases h
      · split at h
        · simp only [RowResult.album.injEq] at h
          subst h
          simp only [decide_eq_true_eq]
          cases lockIndex with
          | none => simp
          | some i =>
            cases hv : (parseCSVLine line)[i]? with
            | none => simp [hv]
            | some v =>
              by_cases hvt : v = ""
              · simp [hv, hvt, truthy]
              · simp [hv, hvt, truthy]
        · cases h

/-- C23. When the row loop of `parseCSV` ends without the fallback, every album of the result
was built from a data row, and its `lock` is true exactly when the header has a `Lock` column
and the cell of the row in that column is non-empty and, trimmed and lower-cased, equals
"yes"; without the column, without the cell, or with an empty cell, `lock` is false. -/
theorem lock_iff_lock_cell_yes (cm : CaseMapping) (csvText headerLine : String)
    (dataLines : List String) (albumIdIndex : Nat) (albums : AlbumMap)
    (hlines : jsSplit csvText (Char.ofNat 10) = headerLine :: dataLines)
    (hid : jsIndexOf ((jsSplit headerLine (Char.ofNat 44)).map jsTrim) "AlbumID" =
      some albumIdIndex)
    (hrows : parseRows cm ((jsSplit headerLine (Char.ofNat 44)).map jsTrim) albumIdIndex
      (jsIndexOf ((jsSplit headerLine (Char.ofNat 44)).map jsTrim) "Lock") dataLines
      AlbumMap.empty = some albums)
    (hne : albums.own ≠ []) :
    parseCSV cm csvText = albums ∧
    ∀ x ∈ albums.own, ∃ line ∈ dataLines,
      parseRow cm ((jsSplit headerLine (Char.ofNat 44)).map jsTrim) albumIdIndex
        (jsIndexOf ((jsSplit headerLine (Char.ofNat 44)).map jsTrim) "Lock") line =
          .album x.2 ∧
      (x.2.lock = true ↔ ∃ i v,
        jsIndexOf ((jsSplit headerLine (Char.ofNat 44)).map jsTrim) "Lock" = some i ∧
        (parseCSVLine line)[i]? = some v ∧ v ≠ "" ∧ cm.toLowerCase (jsTrim v) = "yes") ∧
      (jsIndexOf ((jsSplit headerLine (Char.ofNat 44)).map jsTrim) "Lock" = none →
        x.2.lock = false) ∧
      (∀ i, jsIndexOf ((jsSplit headerLine (Char.ofNat 44)).map jsTrim) "Lock" = some i →
        (parseCSVLine line)[i]? = none ∨ (parseCSVLine line)[i]? = some "" →
        x.2.lock = false) := by
  refine ⟨parseCSV_of_rows cm csvText headerLine dataLines albumIdIndex albums hlines hid hrows
    hne, ?_⟩
  intro x hx
  rcases parseRows_mem_row cm _ _ _ dataLines _ _ hrows x hx with h | ⟨line, hl, h⟩
  · simp [AlbumMap.empty] at h
  · refine ⟨line, hl, h, ?_⟩
    have hlock := parseRow_lock cm _ _ _ line x.2 h
    refine ⟨hlock, ?_, ?_⟩
    · intro hn
      cases hb : x.2.lock with
      | false => rfl
      | true =>
        obtain ⟨i, v, hi, _⟩ := hlock.mp hb
        rw [hn] at hi
        cases hi
    · intro i hi hcell
      cases hb : x.2.lock with
      | false => rfl
      | true =>
        obtain ⟨i', v, hi', hv, hne', _⟩ := hlock.mp hb
        rw [hi] at hi'
        cases hi'
        rcases hcell with hc | hc
        · rw [hc] at hv
          cases hv
        · rw [hc] at hv
          cases hv
          exact absurd rfl hne'

/-- C23 at the sheet `exampleSheet`, whose one data row has the `Lock` cell `yes`. -/
theorem lock_iff_lock_cell_yes_witness :
    parseCSV asciiCase exampleSheet = { own := [("alb", exampleAlbum)], proto := none } ∧
    exampleAlbum.lock = true :=
  ⟨(lock_iff_lock_cell_yes asciiCase exampleSheet "AlbumID,Lock,Theme,Track 1,Track 2,Track 3"
      ["alb,yes,,,https://x.org/a/second-song.mp3, https://x.org/a/third.ogg "] 0
      { own := [("alb", exampleAlbum)], proto := none } (by decide) (by decide) (by decide)
      (by decide)).1,
    by decide⟩

/-- Every album of the object that `parseCSV` returns is an album of the sample dataset or was
built by a round of the row loop. -/
theorem parseCSV_own_cases (cm : CaseMapping) (csvText : String) :
    ∀ x ∈ (parseCSV cm csvText).own, x ∈ getSampleAlbumData.own ∨
      ∃ headers albumIdIndex lockIndex line,
        parseRow cm headers albumIdIndex lockIndex line = .album x.2 := by
  unfold parseCSV
  split
  · exact fun x hx => Or.inl hx
  · exact fun x hx => Or.inl hx
  · simp only []
    split
    · exact fun x hx => Or.inl hx
    · split
      · exact fun x hx => Or.inl hx
      · rename_i albums hrows
        split
        · exact fun x hx => Or.inl hx
        · intro x hx
          rcases parseRows_mem_row cm _ _ _ _ _ _ hrows x hx with h | ⟨line, _, h⟩
          · simp [AlbumMap.empty] at h
          · exact Or.inr ⟨_, _, _, line, h⟩

theorem jsTrimChars_of_all_whitespace (cs : List Char)
    (h : ∀ c ∈ cs, isJsWhitespace c = true) : jsTrimChars cs = [] := by
  have h0 : cs.dropWhile isJsWhitespace = [] := List.dropWhile_eq_nil_iff.mpr h
  simp [jsTrimChars, h0]

/-- A blank cell in the column `Track j` gives no track in that round of the track loop. -/
theorem trackAt_blank (cm : CaseMapping) (headers values : List String) (j i : Nat)
    (cell : String) (hi : jsIndexOf headers ("Track " ++ toString j) = some i)
    (hcell : values[i]? = some cell) (hblank : ∀ c ∈ cell.toList, isJsWhitespace c = true) :
    trackAt cm headers values j = none := by
  unfold trackAt
  simp only [hi, hcell]
  have : jsTrim cell = "" := by
    unfold jsTrim
    rw [jsTrimChars_of_all_whitespace _ hblank]
  simp [this, truthy]

/-- Strictly increasing numbers between 1 and 12 are at most twelve. -/
theorem length_le_of_increasing (l : List Nat) (hp : l.Pairwise (fun x y => x < y))
    (hb : ∀ x ∈ l, 1 ≤ x ∧ x ≤ 12) : l.length ≤ 12 := by
  by_contra hlen
  have hlt : 12 < l.length := by omega
  have hget : l[12]? = some (l.get ⟨12, hlt⟩) := by
    simp [List.getElem?_eq_getElem hlt]
  have h1 := position_le_of_increasing l 1 hp (fun x hx => (hb x hx).1) 12 _ hget
  have h2 := (hb _ (List.get_mem l 12 hlt)).2
  omega

/-- C24. For every text and every album of the object that `parseCSV` returns, the ids of the
tracks lie within 1..12 and increase strictly along the list, so there are at most 12 tracks
and no id occurs twice, and every track has a non-empty `src`; and in an album built from a
row, a column `Track j` whose cell in the row is empty or holds white space only gives no
track with the id `j`. -/
theorem parseCSV_tracks_valid (cm : CaseMapping) (csvText : String) :
    (∀ x ∈ (parseCSV cm csvText).own,
      (∀ t ∈ x.2.tracks, 1 ≤ t.id ∧ t.id ≤ 12) ∧
      (x.2.tracks.map Track.id).Pairwise (fun m n => m < n) ∧
      x.2.tracks.length ≤ 12 ∧
      (x.2.tracks.map Track.id).Nodup ∧
      ∀ t ∈ x.2.tracks, t.src ≠ "") ∧
    ∀ (headers : List String) (albumIdIndex : Nat) (lockIndex : Option Nat) (line : String)
      (a : Album) (j i : Nat) (cell : String),
      parseRow cm headers albumIdIndex lockIndex line = .album a →
      jsIndexOf headers ("Track " ++ toString j) = some i →
      (parseCSVLine line)[i]? = some cell →
      (∀ c ∈ cell.toList, isJsWhitespace c = true) →
      trackAt cm headers (parseCSVLine line) j = none ∧ ∀ t ∈ a.tracks, t.id ≠ j := by
  refine ⟨?_, ?_⟩
  · intro x hx
    obtain ⟨hp, hb⟩ := parseCSV_trackIdsOrdered cm csvText x hx
    refine ⟨hb, hp, ?_, hp.imp (fun h => Nat.ne_of_lt h), ?_⟩
    · have := length_le_of_increasing (x.2.tracks.map Track.id) hp (by
        intro n hn
        obtain ⟨t, ht, rfl⟩ := List.mem_map.mp hn
        exact hb t ht)
      simpa using this
    · rcases parseCSV_own_cases cm csvText x hx with h | ⟨hs, ix, lx, l, h⟩
      · have hsample : ∀ y ∈ getSampleAlbumData.own, ∀ t ∈ y.2.tracks, t.src ≠ "" := by decide
        exact hsample x h
      · intro t ht
        rw [parseRow_tracks cm _ _ _ l x.2 h, List.mem_filterMap] at ht
        obtain ⟨n, _, hn⟩ := ht
        exact (trackAt_id cm _ _ n t hn).2
  · intro headers albumIdIndex lockIndex line a j i cell hrow hi hcell hblank
    have hnone := trackAt_blank cm headers (parseCSVLine line) j i cell hi hcell hblank
    refine ⟨hnone, ?_⟩
    intro t ht hid
    rw [parseRow_tracks cm _ _ _ line a hrow, List.mem_filterMap] at ht
    obtain ⟨n, _, hn⟩ := ht
    have := (trackAt_id cm _ _ n t hn).1
    rw [hid] at this
    rw [← this, hnone] at hn
    cases hn

/-- C24 at the sheet `exampleSheet`: the cell of `Track 1` is empty, and the album has the
tracks 2 and 3. -/
theorem parseCSV_tracks_valid_witness :
    (∀ x ∈ (parseCSV asciiCase exampleSheet).own, x.2.tracks.length ≤ 12 ∧
      ∀ t ∈ x.2.tracks, t.src ≠ "") ∧
    (∀ t ∈ exampleAlbum.tracks, t.id ≠ 1) ∧
    exampleAlbum.tracks.map Track.id = [2, 3] :=
  have h := parseCSV_tracks_valid asciiCase exampleSheet
  ⟨fun x hx => ⟨(h.1 x hx).2.2.1, (h.1 x hx).2.2.2.2⟩,
    (h.2 ["AlbumID", "Lock", "Theme", "Track 1", "Track 2", "Track 3"] 0 (some 1)
      "alb,yes,,,https://x.org/a/second-song.mp3, https://x.org/a/third.ogg " exampleAlbum 1 3
      "" (by decide) (by decide) (by decide) (by decide)).2,
    by decide⟩

/-! ## A row that is too short -/

theorem parseRows_raise (cm : CaseMapping) (headers : List String) (albumIdIndex : Nat)
    (lockIndex : Option Nat) (line : String)
    (hraise : parseRow cm headers albumIdIndex lockIndex line = .raise) (lines : List String)
    (hline : line ∈ lines) :
    ∀ m : AlbumMap, parseRows cm headers albumIdIndex lockIndex lines m = none := by
  induction lines with
  | nil => simp at hline
  | cons l rest ih =>
    intro m
    unfold parseRows
    split
    · rename_i hs
      rcases List.mem_cons.mp hline with h | h
      · rw [← h, hraise] at hs
        cases hs
      · exact ih h m
    · rename_i a ha
      rcases List.mem_cons.mp hline with h | h
      · rw [← h, hraise] at ha
        cases ha
      · exact ih h _
    · rfl

/-- The characters of the values of a line are characters of the line. -/
theorem parseCSVLineLoop_chars (cs : List Char) :
    ∀ (q : Bool) (cur : List Char) (vals : List String) (P : Char → Prop),
      (∀ c ∈ cs, P c) → (∀ c ∈ cur, P c) → (∀ v ∈ vals, ∀ c ∈ v.toList, P c) →
      ∀ v ∈ parseCSVLineLoop cs q cur vals, ∀ c ∈ v.toList, P c := by
  induction cs with
  | nil =>
    intro q cur vals P _ hcur hvals v hv
    simp only [parseCSVLineLoop, List.mem_append, List.mem_singleton] at hv
    rcases hv with h | h
    · exact hvals v h
    · subst h; exact hcur
  | cons c cs ih =>
    intro q cur vals P hcs hcur hvals
    have hc := hcs c (List.mem_cons_self _ _)
    have hrest : ∀ d ∈ cs, P d := fun d hd => hcs d (List.mem_cons_of_mem _ hd)
    have hpush : ∀ v ∈ vals ++ [String.mk cur], ∀ d ∈ v.toList, P d := by
      intro v hv
      simp only [List.mem_append, List.mem_singleton] at hv
      rcases hv with h | h
      · exact hvals v h
      · subst h; exact hcur
    unfold parseCSVLineLoop
    split
    · exact ih _ _ _ P hrest hcur hvals
    · split
      · exact ih _ _ _ P hrest (by simp) hpush
      · refine ih _ _ _ P hrest ?_ hvals
        intro d hd
        simp only [List.mem_append, List.mem_singleton] at hd
        rcases hd with h | h
        · exact hcur d h
        · subst h; exact hc

theorem all_whitespace_of_jsTrimChars_nil (cs : List Char) (h : jsTrimChars cs = []) :
    ∀ c ∈ cs, isJsWhitespace c = true := by
  unfold jsTrimChars at h
  rw [List.reverse_eq_nil_iff, List.dropWhile_eq_nil_iff] at h
  have h0 : cs.dropWhile isJsWhitespace = [] := by
    cases hd : cs.dropWhile isJsWhitespace with
    | nil => rfl
    | cons x xs =>
      have hx : isJsWhitespace x = true := h x (by rw [hd]; simp)
      have hnot := List.head_dropWhile_not isJsWhitespace cs (by rw [hd]; simp)
      simp only [hd, List.head_cons] at hnot
      rw [hx] at hnot
      cases hnot
  exact List.dropWhile_eq_nil_iff.mp h0

/-- A line with a value that is not blank is not blank. -/
theorem jsTrim_line_ne_empty (line cell : String) (hcell : cell ∈ parseCSVLine line)
    (hne : jsTrim cell ≠ "") : jsTrim line ≠ "" := by
  intro hline
  apply hne
  have hl : jsTrimChars line.toList = [] := by
    have := congrArg String.data hline
    simpa [jsTrim] using this
  have hall := all_whitespace_of_jsTrimChars_nil _ hl
  have hcellAll : ∀ c ∈ cell.toList, isJsWhitespace c = true :=
    parseCSVLineLoop_chars line.toList false [] [] (fun c => isJsWhitespace c = true) hall
      (by simp) (by simp) cell hcell
  unfold jsTrim
  rw [jsTrimChars_of_all_whitespace _ hcellAll]

/-- C28. One short row discards the whole sheet: when the header has an `Album Art` or a
`Stripe Payment Links` column at the index `k`, and a data row has a value at the index of
`AlbumID` that is not blank, and at most `k` values, the round of that row raises and
`parseCSV` returns the sample dataset, whatever the other rows are. -/
theorem short_row_discards_sheet (cm : CaseMapping) (csvText headerLine : String)
    (dataLines : List String) (albumIdIndex k : Nat) (line idCell : String)
    (hlines : jsSplit csvText (Char.ofNat 10) = headerLine :: dataLines)
    (hid : jsIndexOf ((jsSplit headerLine (Char.ofNat 44)).map jsTrim) "AlbumID" =
      some albumIdIndex)
    (hk : jsIndexOf ((jsSplit headerLine (Char.ofNat 44)).map jsTrim) "Album Art" = some k ∨
      jsIndexOf ((jsSplit headerLine (Char.ofNat 44)).map jsTrim) "Stripe Payment Links" =
        some k)
    (hline : line ∈ dataLines)
    (hcell : (parseCSVLine line)[albumIdIndex]? = some idCell)
    (hidne : jsTrim idCell ≠ "")
    (hshort : (parseCSVLine line).length ≤ k) :
    parseRow cm ((jsSplit headerLine (Char.ofNat 44)).map jsTrim) albumIdIndex
      (jsIndexOf ((jsSplit headerLine (Char.ofNat 44)).map jsTrim) "Lock") line = .raise ∧
    parseCSV cm csvText = getSampleAlbumData := by
  have hraise : parseRow cm ((jsSplit headerLine (Char.ofNat 44)).map jsTrim) albumIdIndex
      (jsIndexOf ((jsSplit headerLine (Char.ofNat 44)).map jsTrim) "Lock") line = .raise := by
    have hl := jsTrim_line_ne_empty line idCell (List.getElem?_mem hcell) hidne
    have hnone : (parseCSVLine line)[k]? = none := List.getElem?_eq_none hshort
    unfold parseRow
    simp only [truthy, hcell, hl, hidne]
    rcases hk with h | h
    · simp [h, cellStrict, hnone, hl, hidne]
    · simp only [h, cellStrict, hnone, Option.map_none']
      split <;> simp_all
  refine ⟨hraise, ?_⟩
  unfold parseCSV
  rw [hlines]
  cases dataLines with
  | nil => simp at hline
  | cons d ds =>
    simp only [hid]
    rw [parseRows_raise cm _ _ _ line hraise (d :: ds) hline]

/-- C28 at a sheet whose first data row is complete and whose second data row stops before the
`Album Art` column. -/
theorem short_row_discards_sheet_witness :
    parseCSV asciiCase "AlbumID,Lock,Album Art\nalb1,yes,a.png\nalb2,no" =
      getSampleAlbumData ∧
    parseRow asciiCase ["AlbumID", "Lock", "Album Art"] 0 (some 1) "alb1,yes,a.png" ≠ .raise :=
  ⟨(short_row_discards_sheet asciiCase "AlbumID,Lock,Album Art\nalb1,yes,a.png\nalb2,no"
      "AlbumID,Lock,Album Art" ["alb1,yes,a.png", "alb2,no"] 0 2 "alb2,no" "alb2" (by decide)
      (by decide) (Or.inl (by decide)) (by decide) (by decide) (by decide) (by decide)).2,
    by decide⟩

/-! ## The payment link and the store across the methods -/

theorem unlockFullAccess_link (p : MediaPlayer) (now : Nat) :
    (p.unlockFullAccess now).state.STRIPE_PAYMENT_LINK = p.STRIPE_PAYMENT_LINK := by
  cases hm : p.mediaPlayerModule <;> cases hv : p.previewSection <;>
    cases hs : p.purchasedSection <;> cases hb : p.downloadAllButton <;>
    cases hc : p.currentAlbum <;>
    simp [MediaPlayer.unlockFullAccess, Outcome.state, hm, hv, hs, hb, hc]

/-- The method `unlockFullAccess` writes to the store at most under the key of the current
album. -/
theorem unlockFullAccess_store (p : MediaPlayer) (now : Nat) (k : String)
    (hk : ∀ a, p.currentAlbum = some a → k ≠ purchaseKey a.id) :
    (p.unlockFullAccess now).state.localStorage.getItem k = p.localStorage.getItem k := by
  cases hc : p.currentAlbum with
  | none =>
    cases hm : p.mediaPlayerModule <;> cases hv : p.previewSection <;>
      cases hs : p.purchasedSection <;> cases hb : p.downloadAllButton <;>
      simp [MediaPlayer.unlockFullAccess, Outcome.state, hm, hv, hs, hb, hc]
  | some a =>
    have hne := hk a hc
    cases hm : p.mediaPlayerModule <;> cases hv : p.previewSection <;>
      cases hs : p.purchasedSection <;> cases hb : p.downloadAllButton <;>
      simp [MediaPlayer.unlockFullAccess, Outcome.state, hm, hv, hs, hb, hc, Storage.setItem,
        Storage.getItem, hne]

theorem verifyPurchase_store (p : MediaPlayer) (token : Option String) (now : Nat) (k : String)
    (hk : ∀ a, p.currentAlbum = some a → k ≠ purchaseKey a.id) :
    (p.verifyPurchase token now).state.localStorage.getItem k = p.localStorage.getItem k ∧
      (p.verifyPurchase token now).state.STRIPE_PAYMENT_LINK = p.STRIPE_PAYMENT_LINK := by
  unfold MediaPlayer.verifyPurchase
  split
  · exact ⟨unlockFullAccess_store { p with isPurchased := true } now k hk,
      unlockFullAccess_link { p with isPurchased := true } now⟩
  · exact ⟨rfl, rfl⟩

theorem checkPurchaseStatus_store (p : MediaPlayer) (now : Nat) (k : String)
    (hk : ∀ a, p.currentAlbum = some a → k ≠ purchaseKey a.id) :
    (p.checkPurchaseStatus now).state.localStorage.getItem k = p.localStorage.getItem k ∧
      (p.checkPurchaseStatus now).state.STRIPE_PAYMENT_LINK = p.STRIPE_PAYMENT_LINK := by
  unfold MediaPlayer.checkPurchaseStatus
  split
  · exact ⟨rfl, rfl⟩
  · simp only []
    split
    · rename_i a _ _
      exact verifyPurchase_store
        { p with effects := p.effects ++ [Effect.storageRead (purchaseKey a.id)] } _ now k hk
    · exact ⟨rfl, rfl⟩

theorem loadAlbumDataRender_store (r : MediaPlayer) (a : Album) (now : Nat) (k : String)
    (ha : r.currentAlbum = some a) (hk : k ≠ purchaseKey a.id) :
    (r.loadAlbumDataRender a now).state.localStorage.getItem k = r.localStorage.getItem k ∧
      (r.loadAlbumDataRender a now).state.STRIPE_PAYMENT_LINK = r.STRIPE_PAYMENT_LINK := by
  have hg := createTracks_gate r
  simp only [MediaPlayer.gate, Gate.mk.injEq] at hg
  obtain ⟨-, g2, -, g4, -, -, g7, -⟩ := hg
  unfold MediaPlayer.loadAlbumDataRender
  cases hc : r.createTracks with
  | threw c =>
    rw [hc] at g4 g7
    simp only [Outcome.state] at g4 g7
    simp only [Outcome.andThen, Outcome.state, g4, g7, and_self]
  | ok c =>
    rw [hc] at g2 g4 g7
    simp only [Outcome.state] at g2 g4 g7
    have hkc : ∀ b, c.currentAlbum = some b → k ≠ purchaseKey b.id := by
      intro b hb
      rw [g2, ha] at hb
      cases hb
      exact hk
    simp only [Outcome.andThen]
    split
    · rw [unlockFullAccess_store c now k hkc, unlockFullAccess_link, g4, g7]
      exact ⟨rfl, rfl⟩
    · have h := checkPurchaseStatus_store
        { c with previewSection := c.previewSection.map (fun _ => false),
                 purchasedSection := c.purchasedSection.map (fun _ => true) } now k hkc
      rw [h.1, h.2]
      simp only [g4, g7, and_self]

theorem loadAlbumDataReset_state (p : MediaPlayer) (a : Album) :
    (p.loadAlbumDataReset a).state.currentAlbum = some a ∧
      (p.loadAlbumDataReset a).state.STRIPE_PAYMENT_LINK = a.paymentLink ∧
      ∀ k, k ≠ purchaseKey a.id →
        (p.loadAlbumDataReset a).state.localStorage.getItem k = p.localStorage.getItem k := by
  unfold MediaPlayer.loadAlbumDataReset
  simp only []
  by_cases ht : truthy a.theme = true
  · simp only [ht, if_true]
    have hg := setTheme_gate
      { p with currentAlbum := some a, STRIPE_PAYMENT_LINK := a.paymentLink,
               TRACKS_DATA := a.tracks,
               albumTitleElement := p.albumTitleElement.map (fun _ => a.title) } a.theme
    simp only [MediaPlayer.gate, Gate.mk.injEq] at hg
    obtain ⟨-, g2, -, g4, -, -, g7, -⟩ := hg
    cases hs : MediaPlayer.setTheme
      { p with currentAlbum := some a, STRIPE_PAYMENT_LINK := a.paymentLink,
               TRACKS_DATA := a.tracks,
               albumTitleElement := p.albumTitleElement.map (fun _ => a.title) } a.theme with
    | threw c =>
      rw [hs] at g2 g4 g7
      simp only [Outcome.state] at g2 g4 g7
      simp only [Outcome.andThen, Outcome.state, g2, g4, g7, true_and]
      intro k _
      trivial
    | ok c =>
      rw [hs] at g2 g4 g7
      simp only [Outcome.state] at g2 g4 g7
      simp only [Outcome.andThen, Outcome.state, g2, g4, g7, true_and]
      intro k hk
      simp [Storage.removeItem, Storage.getItem, hk]
  · simp only [ht, if_false, Bool.false_eq_true, Outcome.andThen, Outcome.state, true_and]
    intro k hk
    simp [Storage.removeItem, Storage.getItem, hk]

/-- The call `loadAlbumData(album)`, however it ends, leaves the payment link of the album in
`STRIPE_PAYMENT_LINK` and changes the store at most under the key of the album. -/
theorem loadAlbumData_state (p : MediaPlayer) (a : Album) (now : Nat) :
    (p.loadAlbumData (some a) now).state.STRIPE_PAYMENT_LINK = a.paymentLink ∧
      ∀ k, k ≠ purchaseKey a.id →
        (p.loadAlbumData (some a) now).state.localStorage.getItem k =
          p.localStorage.getItem k := by
  obtain ⟨h1, h2, h3⟩ := loadAlbumDataReset_state p a
  simp only [MediaPlayer.loadAlbumData]
  cases hr : p.loadAlbumDataReset a with
  | threw c =>
    rw [hr] at h2 h3
    exact ⟨h2, h3⟩
  | ok c =>
    rw [hr] at h1 h2 h3
    simp only [Outcome.state] at h1 h2 h3
    simp only [Outcome.andThen]
    refine ⟨(loadAlbumDataRender_store c a now "" h1 (by
      intro h
      have := congrArg String.length h
      have h19 : "albumPurchaseToken-".length = 19 := by decide
      simp only [purchaseKey, String.length_append, h19] at this
      have h0 : "".length = 0 := by decide
      omega)).2.trans h2, ?_⟩
    intro k hk
    exact ((loadAlbumDataRender_store c a now k h1 hk).1).trans (h3 k hk)

/-- Distinct album ids have distinct keys in the store. -/
theorem purchaseKey_injective (a b : String) (h : purchaseKey a = purchaseKey b) : a = b := by
  unfold purchaseKey at h
  have hd := congrArg String.data h
  rw [String.data_append, String.data_append] at hd
  exact String.ext (List.append_cancel_left hd)

/-- C25. After `loadAlbumData(album)` the field `STRIPE_PAYMENT_LINK` holds the payment link of
the album. On a player in that condition whose purchase button has its listener, a click on the
button shows the dialog and continues with `unlockFullAccess()` exactly when the user
confirms; with an empty link nothing else is shown (no payment page is opened), with a
non-empty link the payment page is opened once, before the dialog. -/
theorem purchase_click_simulated (p0 : MediaPlayer) (a : Album) (now0 : Nat) (p : MediaPlayer)
    (b : PurchaseButton) (answer : Bool) (now : Nat)
    (hlink : p.STRIPE_PAYMENT_LINK = a.paymentLink)
    (hb : p.purchaseButton = some b) (hl : b.listener = true) :
    (p0.loadAlbumData (some a) now0).state.STRIPE_PAYMENT_LINK = a.paymentLink ∧
    (a.paymentLink = "" →
      p.purchaseClick answer now =
        (if answer then
          MediaPlayer.unlockFullAccess
            { p with effects := p.effects ++ [Effect.confirmDialog] } now
        else .ok { p with effects := p.effects ++ [Effect.confirmDialog] }) ∧
      (p.purchaseClick answer now).state.effects = p.effects ++ [Effect.confirmDialog]) ∧
    (a.paymentLink ≠ "" →
      p.purchaseClick answer now =
        (if answer then
          MediaPlayer.unlockFullAccess
            { p with effects :=
                p.effects ++ [Effect.windowOpen a.paymentLink, Effect.confirmDialog] } now
        else .ok { p with effects :=
                p.effects ++ [Effect.windowOpen a.paymentLink, Effect.confirmDialog] }) ∧
      (p.purchaseClick answer now).state.effects =
        p.effects ++ [Effect.windowOpen a.paymentLink, Effect.confirmDialog]) := by
  refine ⟨(loadAlbumData_state p0 a now0).1, ?_, ?_⟩
  · intro he
    have hclick : p.purchaseClick answer now =
        (if answer then
          MediaPlayer.unlockFullAccess
            { p with effects := p.effects ++ [Effect.confirmDialog] } now
        else .ok { p with effects := p.effects ++ [Effect.confirmDialog] }) := by
      simp [MediaPlayer.purchaseClick, hb, hl, hlink, he, truthy]
    refine ⟨hclick, ?_⟩
    rw [hclick]
    cases answer
    · rfl
    · simp only [if_true]
      rw [(unlockFullAccess_frame _ now).2.2]
  · intro hne
    have hclick : p.purchaseClick answer now =
        (if answer then
          MediaPlayer.unlockFullAccess
            { p with effects :=
                p.effects ++ [Effect.windowOpen a.paymentLink, Effect.confirmDialog] } now
        else .ok { p with effects :=
                p.effects ++ [Effect.windowOpen a.paymentLink, Effect.confirmDialog] }) := by
      simp [MediaPlayer.purchaseClick, hb, hl, hlink, hne, truthy]
    refine ⟨hclick, ?_⟩
    rw [hclick]
    cases answer
    · rfl
    · simp only [if_true]
      rw [(unlockFullAccess_frame _ now).2.2]

/-- C25 on the fresh player: the album without a link is loaded and the click is confirmed,
and the album with a link is loaded and the click is declined. -/
theorem purchase_click_simulated_witness :
    (unlinkedLoaded.purchaseClick true 7).state.effects =
        unlinkedLoaded.effects ++ [Effect.confirmDialog] ∧
    (lockedLoaded.purchaseClick false 7).state.effects =
        lockedLoaded.effects ++
          [Effect.windowOpen "https://buy.stripe.com/14k7w75i8fGzaIgaEG", Effect.confirmDialog] :=
  ⟨((purchase_click_simulated (freshPlayer Storage.empty) unlinkedAlbum 0 unlinkedLoaded
      { purchaseText := some "Buy Full Album", pulse := false, listener := true } true 7
      rfl rfl rfl).2.1 rfl).2,
    ((purchase_click_simulated (freshPlayer Storage.empty) lockedAlbum 0 lockedLoaded
      { purchaseText := some "Buy Full Album", pulse := false, listener := true } false 7
      rfl rfl rfl).2.2 (by decide)).2⟩

/-- C26. Store frame: `loadAlbumData(album)`, however it ends, and `unlockFullAccess()` on the
current album change the store at most under the key "albumPurchaseToken-" + id of that album
(`unlockFullAccess()` without a current album changes nothing in it); another album id has
another key, so its purchase record is what it was. -/
theorem store_frame (p : MediaPlayer) (a : Album) (now : Nat) (other : String)
    (hother : other ≠ a.id) :
    (∀ k, k ≠ purchaseKey a.id →
      (p.loadAlbumData (some a) now).state.localStorage.getItem k = p.localStorage.getItem k) ∧
    (p.currentAlbum = some a → ∀ k, k ≠ purchaseKey a.id →
      (p.unlockFullAccess now).state.localStorage.getItem k = p.localStorage.getItem k) ∧
    (p.currentAlbum = none → ∀ k,
      (p.unlockFullAccess now).state.localStorage.getItem k = p.localStorage.getItem k) ∧
    purchaseKey other ≠ purchaseKey a.id ∧
    (p.loadAlbumData (some a) now).state.localStorage.getItem (purchaseKey other) =
      p.localStorage.getItem (purchaseKey other) ∧
    (p.currentAlbum = some a →
      (p.unlockFullAccess now).state.localStorage.getItem (purchaseKey other) =
        p.localStorage.getItem (purchaseKey other)) := by
  have hkey : purchaseKey other ≠ purchaseKey a.id :=
    fun h => hother (purchaseKey_injective _ _ h)
  have hu : p.currentAlbum = some a → ∀ k, k ≠ purchaseKey a.id →
      (p.unlockFullAccess now).state.localStorage.getItem k = p.localStorage.getItem k := by
    intro hc k hk
    refine unlockFullAccess_store p now k ?_
    intro b hb
    rw [hc] at hb
    cases hb
    exact hk
  refine ⟨(loadAlbumData_state p a now).2, hu, ?_, hkey,
    (loadAlbumData_state p a now).2 _ hkey, fun hc => hu hc _ hkey⟩
  intro hc k
  refine unlockFullAccess_store p now k ?_
  intro b hb
  rw [hc] at hb
  cases hb

/-- C26 on a fresh player whose store holds a record of `album002`: after the locked album
`album001` is loaded and after its purchase is confirmed, that record is as it was. -/
theorem store_frame_witness :
    (((freshPlayer oneRecord).loadAlbumData (some lockedAlbum) 0).state.localStorage.getItem
        (purchaseKey "album002") = some "purchased-1") ∧
    ((lockedLoaded.withStorage oneRecord).unlockFullAccess 5).state.localStorage.getItem
        (purchaseKey "album002") = some "purchased-1" :=
  ⟨(store_frame (freshPlayer oneRecord) lockedAlbum 0 "album002" (by decide)).2.2.2.2.1,
    (store_frame (lockedLoaded.withStorage oneRecord) lockedAlbum 5 "album002"
      (by decide)).2.2.2.2.2 rfl⟩

/-- What `loadAlbum` does in the cases that the lookup `albumsData[albumId]` separates: nothing
for a missing or empty id and for the current id; an error message and nothing else when the
lookup gives `undefined` or a falsy value; and for an own key one call of `loadAlbumData` with
the album, after `currentAlbumId` was set. -/
theorem loadAlbum_cases (s : AlbumSelector) (albumId : String) (now : Nat) :
    s.loadAlbum none now = s ∧ s.loadAlbum (some "") now = s ∧
    (s.currentAlbumId = some albumId → s.loadAlbum (some albumId) now = s) ∧
    (albumId ≠ "" → s.currentAlbumId ≠ some albumId →
      (s.albumsData.get albumId).filter JsValue.truthy = none →
      s.loadAlbum (some albumId) now =
        { s with errorMessages := s.errorMessages ++ [loadFailedMessage albumId] }) ∧
    (∀ a, albumId ≠ "" → s.currentAlbumId ≠ some albumId →
      s.albumsData.own.lookup albumId = some a →
      (s.loadAlbum (some albumId) now).currentAlbumId = some albumId ∧
      (s.loadAlbum (some albumId) now).loadCalls = s.loadCalls ++ [.album a] ∧
      (s.loadAlbum (some albumId) now).mediaPlayer =
        (s.mediaPlayer.loadAlbumData (some a) now).state) := by
  refine ⟨rfl, ?_, ?_, ?_, ?_⟩
  · simp [AlbumSelector.loadAlbum, truthy]
  · intro h
    simp [AlbumSelector.loadAlbum, h]
  · intro h1 h2 h3
    simp [AlbumSelector.loadAlbum, truthy, h1, h2, h3]
  · intro a h1 h2 h3
    have hget : (s.albumsData.get albumId).filter JsValue.truthy = some (.album a) := by
      simp [AlbumMap.get, h3, Option.filter, JsValue.truthy]
    have hdata : (JsValue.album a).asAlbumData = some a := by
      simp [JsValue.asAlbumData, JsValue.truthy]
    simp only [AlbumSelector.loadAlbum, truthy, h1, h2, hget, hdata]
    cases s.mediaPlayer.loadAlbumData (some a) now <;> simp [Outcome.state, h1]

/-- C29 fails on the code in its second part. The lookup `albumsData[albumId]` goes on to the
prototype of the object, so for the id "constructor", which is not a key of the sample
dataset (nor of the empty object that the constructor assigns), `loadAlbum` sets
`currentAlbumId` to "constructor" and calls `loadAlbumData` with the inherited member, and no
error message is shown; for the absent id "album005" it does what the claim says. -/
theorem loadAlbum_inherited_id_is_loaded :
    "constructor" ∉ sampleSelector.albumsData.keys ∧
    (sampleSelector.loadAlbum (some "constructor") 0).currentAlbumId = some "constructor" ∧
    (sampleSelector.loadAlbum (some "constructor") 0).loadCalls =
      [.objectPrototypeMember "constructor"] ∧
    (sampleSelector.loadAlbum (some "constructor") 0).errorMessages = [] ∧
    ((AlbumSelector.construct (freshPlayer Storage.empty)).loadAlbum (some "constructor")
      0).currentAlbumId = some "constructor" ∧
    (sampleSelector.loadAlbum (some "album005") 0).currentAlbumId = none ∧
    (sampleSelector.loadAlbum (some "album005") 0).loadCalls = [] ∧
    (sampleSelector.loadAlbum (some "album005") 0).errorMessages =
      [loadFailedMessage "album005"] := by
  refine ⟨by decide, by decide, by decide, by decide, by decide, by decide, by decide,
    by decide⟩

/-! ## The title of a track -/

